import Mathlib

/-!
Verification development for the ImageLibrary backend.

The definitions below are a shallow embedding of the repository's data model
and route handlers (Express + Mongoose).  MongoDB collections are embedded as
Lean lists of records; `ObjectId`s and user ids are `Nat`; timestamps are
milliseconds since the epoch as `Nat`; nullable fields are `Option`;
`findOneAndUpdate` / `updateMany` / `find` / `deleteOne` are modelled as
explicit list transformations.  Each route handler becomes a pure function
from the request parameters, the current time, and the database state to a
response together with the new database state.
-/

deriving instance DecidableEq for Except

namespace ImageLibrary

/-- `models/media.js` — the `mediaSchema`.  `size` is an optional `Number`
(the quota code reads it as `item.size || 0`); the trash and lock timestamps
default to `null`. -/
structure Media where
  id : Nat
  userId : Nat
  url : String
  originalName : String
  mediaType : String
  size : Option Nat
  public_id : String
  favorite : Bool
  albumId : Option Nat
  isInTrash : Bool
  trashedAt : Option Nat
  scheduledDeleteAt : Option Nat
  isLocked : Bool
  lockedAt : Option Nat
  createdAt : Nat
deriving DecidableEq, Repr

/-- `models/album.js` — the `albumSchema`.  `media` is the list of member
media ids; `parentAlbumId = none` means the album is a root. -/
structure Album where
  id : Nat
  userId : Nat
  name : String
  description : String
  category : String
  coverUrl : String
  media : List Nat
  parentAlbumId : Option Nat
  isFolder : Bool
  createdAt : Nat
  updatedAt : Nat
deriving DecidableEq, Repr

/-- `models/lockedFolder.js` — the per-user locked-folder session record
(`userId` is unique, so at most one record per user). -/
structure LockedFolder where
  userId : Nat
  password : String
  hasAccess : Bool
  lastAccess : Option Nat
  sessionExpires : Option Nat
deriving DecidableEq, Repr

/-- The two MongoDB collections the claims touch. -/
structure DB where
  albums : List Album
  media : List Media
deriving DecidableEq, Repr

/-- `Model.findOneAndUpdate(filter, update, {new:true})`: update the first
record matching `p` with `f`, returning the updated record (if any) together
with the updated collection. -/
def findOneAndUpdate (p : α → Bool) (f : α → α) : List α → Option α × List α
  | [] => (none, [])
  | x :: xs =>
      if p x then (some (f x), f x :: xs)
      else
        let r := findOneAndUpdate p f xs
        (r.1, x :: r.2)

/-- `Model.updateMany(filter, update)`: update every record matching `p`. -/
def updateMany (p : α → Bool) (f : α → α) (l : List α) : List α :=
  l.map (fun x => if p x then f x else x)

/-- Mongo's `$addToSet`: append the element unless it is already present. -/
def addToSet (x : Nat) (l : List Nat) : List Nat :=
  if x ∈ l then l else l ++ [x]

/-- `Media.updateMany({_id:{$in:ids}}, {$unset:{albumId:1}})` — clear the
`albumId` of every media record whose id is listed. -/
def clearAlbumIdOn (ids : List Nat) (ms : List Media) : List Media :=
  ms.map (fun m => if m.id ∈ ids then { m with albumId := none } else m)

/-- 15 days in milliseconds: `15 * 24 * 60 * 60 * 1000` (the trash grace
period used by the trash routes). -/
def trashGraceMs : Nat := 15 * 24 * 60 * 60 * 1000

/-- 5 minutes in milliseconds: `5 * 60 * 1000` (the locked-folder session
window). -/
def sessionWindowMs : Nat := 5 * 60 * 1000

/-- The fixed storage ceiling: `15 * 1024 * 1024 * 1024` bytes. -/
def storageLimit : Nat := 15 * 1024 * 1024 * 1024

/-- The quota view returned by `calculateUserStorage` (the `usedGB`/`totalGB`
display strings are presentation-only and omitted). -/
structure Storage where
  used : Nat
  total : Nat
  percentage : ℚ
deriving DecidableEq, Repr

/-- `calculateUserStorage` (routes/media.js): sums `item.size || 0` over
`Media.find({userId, isInTrash:false})` and reports the fixed 15 GB limit and
the percentage `used / total * 100`. -/
def calculateUserStorage (userId : Nat) (media : List Media) : Storage :=
  let active := media.filter (fun m => m.userId == userId && m.isInTrash == false)
  let totalUsed := active.foldl (fun acc item => acc + item.size.getD 0) 0
  { used := totalUsed
    total := storageLimit
    percentage := (totalUsed : ℚ) / (storageLimit : ℚ) * 100 }

/-- `POST /:id/trash` (routes/media.js): `findOneAndUpdate({_id, userId})`
setting the three trash fields; `404` when no owned record matches; on
success returns the `scheduledDeleteAt` and the recomputed quota.  Note that
the filter does NOT require `isInTrash:false`. -/
def trashRoute (now userId mediaId : Nat) (db : DB) :
    Except Nat (Nat × Storage) × DB :=
  let r := findOneAndUpdate
      (fun m => m.id == mediaId && m.userId == userId)
      (fun m => { m with
        isInTrash := true
        trashedAt := some now
        scheduledDeleteAt := some (now + trashGraceMs) })
      db.media
  match r.1 with
  | none => (.error 404, db)
  | some m =>
      let db' : DB := { db with media := r.2 }
      (.ok (m.scheduledDeleteAt.getD 0, calculateUserStorage userId db'.media), db')

/-- `POST /:id/restore` (routes/media.js): `findOneAndUpdate({_id, userId,
isInTrash:true})` clearing the three trash fields; `404` when no owned
trashed record matches. -/
def restoreRoute (userId mediaId : Nat) (db : DB) :
    Except Nat Storage × DB :=
  let r := findOneAndUpdate
      (fun m => m.id == mediaId && m.userId == userId && m.isInTrash == true)
      (fun m => { m with
        isInTrash := false
        trashedAt := none
        scheduledDeleteAt := none })
      db.media
  match r.1 with
  | none => (.error 404, db)
  | some _ =>
      let db' : DB := { db with media := r.2 }
      (.ok (calculateUserStorage userId db'.media), db')

/-- `POST /bulk-trash` (routes/media.js): `400` on an empty id list,
otherwise `updateMany({_id:{$in:ids}, userId})` setting the trash fields
(again with no `isInTrash:false` condition). -/
def bulkTrashRoute (now userId : Nat) (mediaIds : List Nat) (db : DB) :
    Except Nat Storage × DB :=
  if mediaIds.isEmpty then (.error 400, db)
  else
    let media' := updateMany
      (fun m => m.id ∈ mediaIds && m.userId == userId)
      (fun m => { m with
        isInTrash := true
        trashedAt := some now
        scheduledDeleteAt := some (now + trashGraceMs) })
      db.media
    let db' : DB := { db with media := media' }
    (.ok (calculateUserStorage userId db'.media), db')

/-- `POST /bulk-restore` (routes/media.js): `updateMany({_id:{$in:ids},
userId, isInTrash:true})` clearing the trash fields. -/
def bulkRestoreRoute (userId : Nat) (mediaIds : List Nat) (db : DB) :
    Except Nat Storage × DB :=
  if mediaIds.isEmpty then (.error 400, db)
  else
    let media' := updateMany
      (fun m => m.id ∈ mediaIds && m.userId == userId && m.isInTrash == true)
      (fun m => { m with
        isInTrash := false
        trashedAt := none
        scheduledDeleteAt := none })
      db.media
    let db' : DB := { db with media := media' }
    (.ok (calculateUserStorage userId db'.media), db')

/-- `POST /:id/lock` (routes/media.js): aggregation-pipeline update toggling
`isLocked` and setting `lockedAt` to `now` when locking, `null` when
unlocking. -/
def lockToggleRoute (now userId mediaId : Nat) (db : DB) :
    Except Nat (Bool × Storage) × DB :=
  let r := findOneAndUpdate
      (fun m => m.id == mediaId && m.userId == userId)
      (fun m => { m with
        isLocked := !m.isLocked
        lockedAt := if m.isLocked then none else some now })
      db.media
  match r.1 with
  | none => (.error 404, db)
  | some m =>
      let db' : DB := { db with media := r.2 }
      (.ok (m.isLocked, calculateUserStorage userId db'.media), db')

/-- One iteration of the upload loop in `POST /upload` (routes/media.js):
the new `Media` document (favorite `false`, `isInTrash:false`, trash and
lock fields at their schema defaults, `albumId` from the request or `null`),
followed by the album `$addToSet` and the first-member cover update. -/
def uploadDoc (now userId newId : Nat) (originalName url publicId mediaType : String)
    (size : Option Nat) (albumId : Option Nat) : Media :=
  { id := newId
    userId := userId
    url := url
    originalName := originalName
    mediaType := mediaType
    size := size
    public_id := publicId
    favorite := false
    albumId := albumId
    isInTrash := false
    trashedAt := none
    scheduledDeleteAt := none
    isLocked := false
    lockedAt := none
    createdAt := now }

def uploadAlbums (userId newId : Nat) (url : String) (albumId : Option Nat)
    (al : List Album) : List Album :=
  match albumId with
  | none => al
  | some aid =>
      let r := findOneAndUpdate
        (fun a => a.id == aid && a.userId == userId)
        (fun a => { a with media := addToSet newId a.media })
        al
      match r.1 with
      | none => al
      | some album =>
          if album.media.length == 1 then
            (findOneAndUpdate (fun a => a.id == aid)
              (fun a => { a with coverUrl := url }) r.2).2
          else
            r.2

def uploadMedia (now userId newId : Nat) (originalName url publicId mediaType : String)
    (size : Option Nat) (albumId : Option Nat) (db : DB) : DB :=
  let doc : Media := uploadDoc now userId newId originalName url publicId mediaType size albumId
  { albums := uploadAlbums userId newId url albumId db.albums
    media := db.media ++ [doc] }

/-! ### SHA-256 (`crypto.createHash('sha256')`), byte-exact

`generateUrlHash` in routes/media.js feeds `originalName + Date.now()` to
Node's SHA-256 and keeps the first 16 lowercase-hex characters.  The
definitions below implement SHA-256 over UTF-8 bytes with 32-bit words as
`Nat` reduced mod `2^32`; they reproduce the NIST test vectors. -/

/-- Truncate to a 32-bit word. -/
def w32 (x : Nat) : Nat := x % 4294967296

/-- 32-bit right rotation. -/
def rotr (n x : Nat) : Nat := w32 ((x >>> n) ||| (x <<< (32 - n)))

def smallSigma0 (x : Nat) : Nat := rotr 7 x ^^^ rotr 18 x ^^^ (x >>> 3)

def smallSigma1 (x : Nat) : Nat := rotr 17 x ^^^ rotr 19 x ^^^ (x >>> 10)

def bigSigma0 (x : Nat) : Nat := rotr 2 x ^^^ rotr 13 x ^^^ rotr 22 x

def bigSigma1 (x : Nat) : Nat := rotr 6 x ^^^ rotr 11 x ^^^ rotr 25 x

def chFn (e f g : Nat) : Nat := (e &&& f) ^^^ ((e ^^^ 4294967295) &&& g)

def majFn (a b c : Nat) : Nat := (a &&& b) ^^^ (a &&& c) ^^^ (b &&& c)

/-- The 64 SHA-256 round constants (the standard table, written in
decimal: the first 32 bits of the fractional parts of the cube roots of the
first 64 primes). -/
def K256 : List Nat :=
  [1116352408, 1899447441, 3049323471, 3921009573, 961987163,
   1508970993, 2453635748, 2870763221, 3624381080, 310598401,
   607225278, 1426881987, 1925078388, 2162078206, 2614888103,
   3248222580, 3835390401, 4022224774, 264347078, 604807628,
   770255983, 1249150122, 1555081692, 1996064986, 2554220882,
   2821834349, 2952996808, 3210313671, 3336571891, 3584528711,
   113926993, 338241895, 666307205, 773529912, 1294757372,
   1396182291, 1695183700, 1986661051, 2177026350, 2456956037,
   2730485921, 2820302411, 3259730800, 3345764771, 3516065817,
   3600352804, 4094571909, 275423344, 430227734, 506948616,
   659060556, 883997877, 958139571, 1322822218, 1537002063,
   1747873779, 1955562222, 2024104815, 2227730452, 2361852424,
   2428436474, 2756734187, 3204031479, 3329325298]

/-- The SHA-256 initial hash value (standard, in decimal). -/
def sha256Init : List Nat :=
  [1779033703, 3144134277, 1013904242, 2773480762, 1359893119,
   2600822924, 528734635, 1541459225]

/-- One message-schedule word, computed from the previous sixteen (the
accumulator holds the schedule so far, newest first). -/
def schedStep (acc : List Nat) : Nat :=
  w32 (smallSigma1 (acc.getD 1 0) + acc.getD 6 0 + smallSigma0 (acc.getD 14 0) + acc.getD 15 0)

/-- Extend the 16 block words to the 64-word message schedule. -/
def buildSchedule : Nat → List Nat → List Nat
  | 0, acc => acc.reverse
  | n+1, acc => buildSchedule n (schedStep acc :: acc)

/-- One SHA-256 compression round. -/
def roundStep (st : Nat × Nat × Nat × Nat × Nat × Nat × Nat × Nat) (kw : Nat × Nat) :
    Nat × Nat × Nat × Nat × Nat × Nat × Nat × Nat :=
  match st, kw with
  | (a, b, c, d, e, f, g, h), (k, w) =>
      let t1 := w32 (h + bigSigma1 e + chFn e f g + k + w)
      let t2 := w32 (bigSigma0 a + majFn a b c)
      (w32 (t1 + t2), a, b, c, w32 (d + t1), e, f, g)

/-- Run the 64 compression rounds. -/
def runRounds : List (Nat × Nat) →
    Nat × Nat × Nat × Nat × Nat × Nat × Nat × Nat →
    Nat × Nat × Nat × Nat × Nat × Nat × Nat × Nat
  | [], st => st
  | kw :: rest, st => runRounds rest (roundStep st kw)

/-- Compress one 16-word block into the running hash. -/
def compressBlock (h : List Nat) (block : List Nat) : List Nat :=
  let ws := buildSchedule 48 block.reverse
  let st0 := (h.getD 0 0, h.getD 1 0, h.getD 2 0, h.getD 3 0,
              h.getD 4 0, h.getD 5 0, h.getD 6 0, h.getD 7 0)
  match runRounds (K256.zip ws) st0 with
  | (a, b, c, d, e, f, g, hh) =>
      [w32 (h.getD 0 0 + a), w32 (h.getD 1 0 + b), w32 (h.getD 2 0 + c),
       w32 (h.getD 3 0 + d), w32 (h.getD 4 0 + e), w32 (h.getD 5 0 + f),
       w32 (h.getD 6 0 + g), w32 (h.getD 7 0 + hh)]

/-- Fold the compression function over the padded message, 16 words at a
time. -/
def sha256Words (h : List Nat) : List Nat → List Nat
  | w0 :: w1 :: w2 :: w3 :: w4 :: w5 :: w6 :: w7 ::
    w8 :: w9 :: w10 :: w11 :: w12 :: w13 :: w14 :: w15 :: rest =>
      sha256Words
        (compressBlock h [w0, w1, w2, w3, w4, w5, w6, w7, w8, w9, w10, w11, w12, w13, w14, w15])
        rest
  | _ => h

/-- Big-endian byte expansion (`n` bytes). -/
def toBytesBE (n x : Nat) : List Nat :=
  (List.range n).map (fun i => (x >>> (8 * (n - 1 - i))) % 256)

/-- SHA-256 padding: `0x80`, zeros to 56 mod 64, then the bit length as a
64-bit big-endian integer. -/
def padMessage (msg : List Nat) : List Nat :=
  let zeros := (119 - msg.length % 64) % 64
  msg ++ [0x80] ++ List.replicate zeros 0 ++ toBytesBE 8 (msg.length * 8)

/-- Group bytes into big-endian 32-bit words. -/
def bytesToWords : List Nat → List Nat
  | b0 :: b1 :: b2 :: b3 :: rest => (((b0 * 256 + b1) * 256 + b2) * 256 + b3) :: bytesToWords rest
  | _ => []

/-- SHA-256 of a byte list, as the eight 32-bit digest words. -/
def sha256Bytes (msg : List Nat) : List Nat :=
  sha256Words sha256Init (bytesToWords (padMessage msg))

/-- A lowercase hex digit. -/
def hexDigit (n : Nat) : Char := if n < 10 then Char.ofNat (48 + n) else Char.ofNat (87 + n)

/-- A 32-bit word as 8 lowercase hex characters. -/
def wordToHex (w : Nat) : List Char :=
  (List.range 8).map (fun i => hexDigit ((w >>> (4 * (7 - i))) % 16))

/-- UTF-8 encoding of one code point. -/
def utf8Bytes (c : Nat) : List Nat :=
  if c < 0x80 then [c]
  else if c < 0x800 then [0xc0 + c / 64, 0x80 + c % 64]
  else if c < 0x10000 then [0xe0 + c / 4096, 0x80 + c / 64 % 64, 0x80 + c % 64]
  else [0xf0 + c / 262144, 0x80 + c / 4096 % 64, 0x80 + c / 64 % 64, 0x80 + c % 64]

/-- The UTF-8 bytes of a string (what `crypto.update` hashes). -/
def strBytes (s : String) : List Nat := (s.data.map (fun c => utf8Bytes c.toNat)).flatten

/-- `crypto.createHash('sha256').update(s).digest('hex')`. -/
def sha256HexDigest (s : String) : String :=
  String.mk (((sha256Bytes (strBytes s)).map wordToHex).flatten)

/-- `generateUrlHash` (routes/media.js): `sha256(originalName + Date.now())`
in hex, truncated to 16 characters.  `Date.now()` renders as its decimal
digits, so the token depends on the current time, not just on the media's
stable attributes. -/
def generateUrlHash (originalName : String) (nowMs : Nat) : String :=
  String.mk ((sha256HexDigest (originalName ++ Nat.repr nowMs)).data.take 16)

/-- The live-session test used by both locked-media read routes:
`lockedFolder?.hasAccess && lockedFolder?.sessionExpires &&
lockedFolder.sessionExpires > new Date()`. -/
def sessionLive (now : Nat) (lf : Option LockedFolder) : Bool :=
  match lf with
  | none => false
  | some s => s.hasAccess && (match s.sessionExpires with
      | none => false
      | some t => now < t)

/-- One listed locked-media entry (the fields the claims need). -/
structure LockedItem where
  id : Nat
  hash : String
  url : String
deriving DecidableEq, Repr

/-- `GET /locked/all` (routes/media.js): requires a live session (`403`
otherwise), then lists the user's locked, non-trashed media, attaching
`hash := generateUrlHash(originalName)` computed at listing time.  (The
`lockedAt`-descending sort is presentation order only and is omitted.) -/
def listLockedRoute (now userId : Nat) (sessions : List LockedFolder) (db : DB) :
    Except Nat (List LockedItem) :=
  if !sessionLive now (sessions.find? (fun s => s.userId == userId)) then .error 403
  else
    .ok ((db.media.filter
        (fun m => m.userId == userId && m.isLocked == true && m.isInTrash == false)).map
      (fun m => { id := m.id, hash := generateUrlHash m.originalName now, url := m.url }))

/-- `POST /locked/access/:hash` (routes/media.js): requires a live session
(`403`), fetches `Media.findOne({userId, isLocked:true})` — the FIRST locked
media of the user, regardless of the hash — recomputes
`generateUrlHash(originalName)` at access time and compares it with the
presented token; `403` on mismatch, otherwise returns the media URL. -/
def accessLockedRoute (now userId : Nat) (hash : String)
    (sessions : List LockedFolder) (db : DB) : Except Nat String :=
  if !sessionLive now (sessions.find? (fun s => s.userId == userId)) then .error 403
  else
    match db.media.find? (fun m => m.userId == userId && m.isLocked == true) with
    | none => .error 404
    | some media =>
        if hash ≠ generateUrlHash media.originalName now then .error 403
        else .ok media.url

/-- `POST /refresh-access` (routes/locked.js): `401` when the session record
is missing, `hasAccess` is false, or `sessionExpires <= now` (a `null`
expiry compares as `0 <= now` in JS and is likewise rejected); otherwise
extend `sessionExpires` to `now + 5 min` and slide `lastAccess`. -/
def refreshAccessRoute (now userId : Nat) (sessions : List LockedFolder) :
    Except Nat Nat × List LockedFolder :=
  match sessions.find? (fun s => s.userId == userId) with
  | none => (.error 401, sessions)
  | some lf =>
      if lf.hasAccess = false then (.error 401, sessions)
      else
        match lf.sessionExpires with
        | none => (.error 401, sessions)
        | some t =>
            if t ≤ now then (.error 401, sessions)
            else
              (.ok (now + sessionWindowMs),
               (findOneAndUpdate (fun s => s.userId == userId)
                 (fun s => { s with
                   sessionExpires := some (now + sessionWindowMs)
                   lastAccess := some now })
                 sessions).2)

/-! ### Album routes (routes/albums.js) -/

/-- The request body's `newParentId` in `PUT /:albumId/move`: either the
string `'root'` or an album id. -/
inductive NewParentReq where
  | root : NewParentReq
  | target : Nat → NewParentReq
deriving DecidableEq, Repr

/-- `PUT /:albumId/move` (routes/albums.js): when a non-root parent is
requested, checks that it exists and is owned, and rejects only
`newParentId === albumId` (the code comments this check as "simplified" —
there is no ancestor-chain walk); then re-parents the album. -/
def moveAlbumRoute (now userId albumId : Nat) (req : NewParentReq) (db : DB) :
    Except Nat Album × DB :=
  let proceed : Except Nat Album × DB :=
    let newParent : Option Nat := match req with
      | .root => none
      | .target pid => some pid
    let r := findOneAndUpdate
      (fun a => a.id == albumId && a.userId == userId)
      (fun a => { a with parentAlbumId := newParent, updatedAt := now })
      db.albums
    match r.1 with
    | none => (.error 404, db)
    | some album => (.ok album, { db with albums := r.2 })
  match req with
  | .root => proceed
  | .target pid =>
      if !(db.albums.any (fun a => a.id == pid && a.userId == userId)) then
        (.error 404, db)
      else if pid = albumId then
        (.error 400, db)
      else proceed

/-- `DELETE /:albumId/remove-media/:mediaId` (routes/albums.js): `$pull` the
media id from the owned album (`404` if absent), `$unset` the media's
`albumId` (by id only — no owner filter), then recompute the cover: empty
string when no members remain, otherwise the URL of the (now-)first member
if that media record exists. -/
def removeMediaRoute (userId albumId mediaId : Nat) (db : DB) :
    Except Nat Unit × DB :=
  let r := findOneAndUpdate
    (fun a => a.id == albumId && a.userId == userId)
    (fun a => { a with media := a.media.filter (fun x => x ≠ mediaId) })
    db.albums
  match r.1 with
  | none => (.error 404, db)
  | some album =>
      let media1 := (findOneAndUpdate (fun m => m.id == mediaId)
        (fun m => { m with albumId := none }) db.media).2
      match album.media with
      | [] =>
          let albums2 := (findOneAndUpdate (fun a => a.id == albumId)
            (fun a => { a with coverUrl := "" }) r.2).2
          (.ok (), { albums := albums2, media := media1 })
      | first :: _ =>
          match media1.find? (fun m => m.id == first) with
          | none => (.ok (), { albums := r.2, media := media1 })
          | some firstMedia =>
              if album.coverUrl ≠ firstMedia.url then
                let albums2 := (findOneAndUpdate (fun a => a.id == albumId)
                  (fun a => { a with coverUrl := firstMedia.url }) r.2).2
                (.ok (), { albums := albums2, media := media1 })
              else
                (.ok (), { albums := r.2, media := media1 })

/-- `POST /move-media` (routes/albums.js): find the owned media (`404`),
`$pull` it from its current album (no cover update there), `$addToSet` it
into the target (`404` if the target is missing — note the pull has already
happened), set the target's cover to the moved media's URL only when the
target now has exactly one member, and finally save the media's new
`albumId` (or `null` when moving to the main library). -/
def moveMediaRoute (mediaId : Nat) (targetAlbumId : Option Nat) (userId : Nat) (db : DB) :
    Except Nat Unit × DB :=
  match db.media.find? (fun m => m.id == mediaId && m.userId == userId) with
  | none => (.error 404, db)
  | some media =>
      let albums1 := match media.albumId with
        | none => db.albums
        | some src => (findOneAndUpdate (fun a => a.id == src && a.userId == userId)
            (fun a => { a with media := a.media.filter (fun x => x ≠ mediaId) })
            db.albums).2
      match targetAlbumId with
      | some target =>
          let r := findOneAndUpdate (fun a => a.id == target && a.userId == userId)
            (fun a => { a with media := addToSet mediaId a.media }) albums1
          match r.1 with
          | none => (.error 404, { db with albums := albums1 })
          | some targetAlbum =>
              let albums2 :=
                if targetAlbum.media.length == 1 then
                  (findOneAndUpdate (fun a => a.id == target)
                    (fun a => { a with coverUrl := media.url }) r.2).2
                else r.2
              let media2 := (findOneAndUpdate (fun m => m.id == mediaId)
                (fun m => { m with albumId := some target }) db.media).2
              (.ok (), { albums := albums2, media := media2 })
      | none =>
          let media2 := (findOneAndUpdate (fun m => m.id == mediaId)
            (fun m => { m with albumId := none }) db.media).2
          (.ok (), { albums := albums1, media := media2 })

/-- The loop body of `deleteChildren` in `DELETE /:albumId`
(routes/albums.js): for each child found, recursively delete its subtree,
clear `albumId` on its member media, then delete the child itself.  `recur`
is the recursive call at the next-lower fuel. -/
def deleteStep (recur : Nat → DB → Option DB) : List Album → DB → Option DB
  | [], db => some db
  | child :: rest, db =>
      match recur child.id db with
      | none => none
      | some db1 =>
          let db2 := if child.media.isEmpty then db1
            else { db1 with media := clearAlbumIdOn child.media db1.media }
          let db3 := { db2 with albums := db2.albums.filter (fun a => a.id ≠ child.id) }
          deleteStep recur rest db3

/-- `deleteChildren` (routes/albums.js): `Album.find({parentAlbumId})` (note:
no owner filter) and the recursive loop.  The JS recursion has no
termination guard and diverges on cyclic parent chains, so the embedding
takes fuel; `none` models non-termination. -/
def deleteChildren : Nat → Nat → DB → Option DB
  | 0, _, _ => none
  | fuel+1, parentId, db =>
      deleteStep (deleteChildren fuel)
        (db.albums.filter (fun a => a.parentAlbumId == some parentId)) db

/-- `DELETE /:albumId` (routes/albums.js): check the album exists and is
owned (`404`), recursively delete all children, clear `albumId` on the
album's own member media, then delete the album itself. -/
def deleteAlbumRoute (fuel userId albumId : Nat) (db : DB) :
    Option (Except Nat DB) :=
  match db.albums.find? (fun a => a.id == albumId && a.userId == userId) with
  | none => some (.error 404)
  | some album =>
      match deleteChildren fuel albumId db with
      | none => none
      | some db1 =>
          let db2 := if album.media.isEmpty then db1
            else { db1 with media := clearAlbumIdOn album.media db1.media }
          some (.ok { db2 with albums := db2.albums.filter (fun a => a.id ≠ albumId) })

/-! ### The trash reaper (cron/Clean.js) -/

/-- The reaper's per-item body: `destroyOk` says whether the Cloudinary
destroy call for a given media id succeeds.  When `public_id` is set and the
destroy throws, the `catch` swallows the error — and the `media.deleteOne()`
that follows the destroy in the same `try` block is skipped.  The returned
list records the ids for which a destroy was attempted. -/
def reaperGo (destroyOk : Nat → Bool) : List Media → DB → DB × List Nat
  | [], db => (db, [])
  | m :: rest, db =>
      if m.public_id ≠ "" then
        if destroyOk m.id then
          let db' := { db with media := db.media.filter (fun x => x.id ≠ m.id) }
          let r := reaperGo destroyOk rest db'
          (r.1, m.id :: r.2)
        else
          let r := reaperGo destroyOk rest db
          (r.1, m.id :: r.2)
      else
        let db' := { db with media := db.media.filter (fun x => x.id ≠ m.id) }
        reaperGo destroyOk rest db'

/-- The reaper's selection criterion, `{isInTrash: true, scheduledDeleteAt:
{$lte: now}}`: a `null` `scheduledDeleteAt` does not match `$lte`. -/
def reaperQualifies (now : Nat) (m : Media) : Bool :=
  m.isInTrash && (match m.scheduledDeleteAt with
    | some t => t ≤ now
    | none => false)

/-- One run of the cron cleanup job (cron/Clean.js): select the expired
trash items, then process each. -/
def reaperRun (now : Nat) (destroyOk : Nat → Bool) (db : DB) : DB × List Nat :=
  reaperGo destroyOk (db.media.filter (reaperQualifies now)) db

/-- `Desc al p x`: the album with id `x` is a proper descendant of `p` in the
album list `al` — following `parentAlbumId` links upward from `x` reaches
`p`. -/
inductive Desc (al : List Album) (p : Nat) : Nat → Prop where
  | base : ∀ a, a ∈ al → a.parentAlbumId = some p → Desc al p a.id
  | step : ∀ a q, a ∈ al → a.parentAlbumId = some q → Desc al p q → Desc al p a.id

/-! ### Generic lemmas about the embedded Mongo operations -/

theorem findOneAndUpdate_fst (p : α → Bool) (f : α → α) :
    ∀ l : List α, (findOneAndUpdate p f l).1 = (l.find? p).map f := by
  intro l
  induction l with
  | nil => rfl
  | cons x xs ih =>
      by_cases hx : p x
      · simp [findOneAndUpdate, List.find?, hx]
      · simp only [findOneAndUpdate, List.find?]
        rw [Bool.not_eq_true] at hx
        simp [hx, ih]

theorem findOneAndUpdate_snd_of_none (p : α → Bool) (f : α → α) :
    ∀ l : List α, (findOneAndUpdate p f l).1 = none → (findOneAndUpdate p f l).2 = l := by
  intro l
  induction l with
  | nil => intro; rfl
  | cons x xs ih =>
      intro h
      by_cases hx : p x
      · simp [findOneAndUpdate, hx] at h
      · rw [Bool.not_eq_true] at hx
        simp only [findOneAndUpdate, hx, Bool.false_eq_true, if_false] at h ⊢
        rw [ih h]

theorem findOneAndUpdate_mem (p : α → Bool) (f : α → α) :
    ∀ l : List α, ∀ z ∈ (findOneAndUpdate p f l).2,
      z ∈ l ∨ ∃ x ∈ l, p x = true ∧ z = f x := by
  intro l
  induction l with
  | nil => intro z hz; exact absurd hz (by simp [findOneAndUpdate])
  | cons x xs ih =>
      intro z hz
      by_cases hx : p x
      · simp only [findOneAndUpdate, hx, if_true, List.mem_cons] at hz
        rcases hz with hz | hz
        · exact Or.inr ⟨x, List.mem_cons_self x xs, hx, hz⟩
        · exact Or.inl (List.mem_cons_of_mem x hz)
      · rw [Bool.not_eq_true] at hx
        simp only [findOneAndUpdate, hx, Bool.false_eq_true, if_false, List.mem_cons] at hz
        rcases hz with hz | hz
        · exact Or.inl (hz ▸ List.mem_cons_self x xs)
        · rcases ih z hz with h | ⟨y, hy, hpy, hzy⟩
          · exact Or.inl (List.mem_cons_of_mem x h)
          · exact Or.inr ⟨y, List.mem_cons_of_mem x hy, hpy, hzy⟩

theorem findOneAndUpdate_decomp (p : α → Bool) (f : α → α) :
    ∀ (l : List α) (y : α), (findOneAndUpdate p f l).1 = some y →
      ∃ l1 x l2, l = l1 ++ x :: l2 ∧ (∀ z ∈ l1, p z = false) ∧ p x = true ∧ y = f x ∧
        (findOneAndUpdate p f l).2 = l1 ++ f x :: l2 := by
  intro l
  induction l with
  | nil => intro y h; exact absurd h (by simp [findOneAndUpdate])
  | cons x xs ih =>
      intro y h
      by_cases hx : p x
      · refine ⟨[], x, xs, rfl, by simp, hx, ?_, ?_⟩
        · simpa [findOneAndUpdate, hx] using h.symm
        · simp [findOneAndUpdate, hx]
      · rw [Bool.not_eq_true] at hx
        simp only [findOneAndUpdate, hx, Bool.false_eq_true, if_false] at h
        rcases ih y h with ⟨l1, w, l2, hl, hpre, hpw, hyw, hsnd⟩
        refine ⟨x :: l1, w, l2, by rw [hl]; rfl, ?_, hpw, hyw, ?_⟩
        · intro z hz
          rcases List.mem_cons.mp hz with hz | hz
          · exact hz ▸ hx
          · exact hpre z hz
        · simp only [findOneAndUpdate, hx, Bool.false_eq_true, if_false]
          rw [hsnd]
          rfl

theorem find?_prefix (p : α → Bool) {l1 : List α} (h1 : ∀ z ∈ l1, p z = false) {x : α}
    (hx : p x = true) (l2 : List α) : (l1 ++ x :: l2).find? p = some x := by
  induction l1 with
  | nil => simp [List.find?, hx]
  | cons z zs ih =>
      have hz : p z = false := h1 z (List.mem_cons_self z zs)
      simp only [List.cons_append, List.find?, hz]
      exact ih (fun w hw => h1 w (List.mem_cons_of_mem z hw))

theorem findOneAndUpdate_find? (p : α → Bool) (f : α → α) (l : List α) (x : α)
    (h : l.find? p = some x) (hf : p (f x) = true) :
    (findOneAndUpdate p f l).2.find? p = some (f x) := by
  have h1 : (findOneAndUpdate p f l).1 = some (f x) := by
    rw [findOneAndUpdate_fst, h]; rfl
  rcases findOneAndUpdate_decomp p f l (f x) h1 with ⟨l1, w, l2, hl, hpre, hpw, hyw, hsnd⟩
  rw [hsnd]
  have : f w = f x := by
    have hw : l.find? p = some w := by rw [hl]; exact find?_prefix p hpre hpw l2
    rw [h] at hw
    exact congrArg f (Option.some.inj hw).symm
  rw [this]
  exact find?_prefix p hpre (this ▸ hf) l2

theorem find?_untouched (p q : α → Bool) (f : α → α)
    (hpq : ∀ z, q z = true → p z = false ∧ p (f z) = false) :
    ∀ l : List α, (findOneAndUpdate q f l).2.find? p = l.find? p := by
  intro l
  induction l with
  | nil => rfl
  | cons x xs ih =>
      by_cases hx : q x
      · have hpx := (hpq x hx).1
        have hpfx := (hpq x hx).2
        simp [findOneAndUpdate, hx, List.find?, hpx, hpfx]
      · rw [Bool.not_eq_true] at hx
        simp only [findOneAndUpdate, hx, Bool.false_eq_true, if_false]
        by_cases hpx : p x
        · simp [List.find?, hpx]
        · rw [Bool.not_eq_true] at hpx
          simp [List.find?, hpx, ih]

theorem nodup_inj {g : α → Nat} {l : List α} (h : (l.map g).Nodup) {a b : α}
    (ha : a ∈ l) (hb : b ∈ l) (hg : g a = g b) : a = b := by
  have := List.inj_on_of_nodup_map h
  exact this ha hb hg

theorem nodup_mid {g : α → Nat} {l1 l2 : List α} {x : α}
    (h : ((l1 ++ x :: l2).map g).Nodup) : ∀ z ∈ l1 ++ l2, g z ≠ g x := by
  have h2 : (l1.map g ++ g x :: l2.map g).Nodup := by simpa using h
  have h3 : (g x :: (l1.map g ++ l2.map g)).Nodup := List.nodup_middle.mp h2
  have h4 : g x ∉ l1.map g ++ l2.map g := (List.nodup_cons.mp h3).1
  intro z hz he
  apply h4
  rw [← he]
  rcases List.mem_append.mp hz with h1 | h1
  · exact List.mem_append.mpr (Or.inl (List.mem_map_of_mem g h1))
  · exact List.mem_append.mpr (Or.inr (List.mem_map_of_mem g h1))

/-! ### Concrete records used by the example databases -/

/-- A default media record; concrete examples override the relevant fields. -/
def mediaBase : Media :=
  { id := 0, userId := 0, url := "", originalName := "", mediaType := "image",
    size := some 0, public_id := "", favorite := false, albumId := none,
    isInTrash := false, trashedAt := none, scheduledDeleteAt := none,
    isLocked := false, lockedAt := none, createdAt := 0 }

/-- A default album record; concrete examples override the relevant fields. -/
def albumBase : Album :=
  { id := 0, userId := 0, name := "", description := "", category := "personal",
    coverUrl := "", media := [], parentAlbumId := none, isFolder := false,
    createdAt := 0, updatedAt := 0 }

/-! ### C1 — cycle prevention on album move -/

/-- User 7's folder `F1` (id 1, a root). -/
def c1F1 : Album := { albumBase with id := 1, userId := 7, name := "F1", isFolder := true }

/-- User 7's folder `F2` (id 2), a child of `F1`. -/
def c1F2 : Album :=
  { albumBase with
    id := 2
    userId := 7
    name := "F2"
    isFolder := true
    parentAlbumId := some 1 }

/-- The database for the C1 scenario: `F2` is a descendant of `F1`. -/
def c1DB : DB := { albums := [c1F1, c1F2], media := [] }

/-- `F1` after the move: its parent is now its own child `F2`. -/
def c1F1Moved : Album := { c1F1 with parentAlbumId := some 2, updatedAt := 5 }

/-- C1: the claim says `Move(albumId, newParentId)` rejects any request in
which `newParentId` is a descendant of `albumId`, so that parent links stay
acyclic.  The code only rejects `newParentId === albumId`: moving `F1` under
its own child `F2` is accepted with a `200` response, and afterwards album 1
is a `Desc`-descendant of itself — the parent chain `1 → 2 → 1` is a cycle,
so following `parentAlbumId` links no longer terminates at a root. -/
theorem c1_move_into_descendant_accepted :
    (moveAlbumRoute 5 7 1 (NewParentReq.target 2) c1DB).1 = Except.ok c1F1Moved ∧
    (moveAlbumRoute 5 7 1 (NewParentReq.target 2) c1DB).2.albums = [c1F1Moved, c1F2] ∧
    Desc (moveAlbumRoute 5 7 1 (NewParentReq.target 2) c1DB).2.albums 1 1 := by
  refine ⟨by decide, by decide, ?_⟩
  have he : (moveAlbumRoute 5 7 1 (NewParentReq.target 2) c1DB).2.albums = [c1F1Moved, c1F2] :=
    by decide
  rw [he]
  have h2 : Desc [c1F1Moved, c1F2] 1 2 :=
    Desc.base c1F2 (by simp) (by decide)
  exact Desc.step c1F1Moved 2 (by simp) (by decide) h2

/-! ### C2 — the locked-media reference token -/

/-- A locked media item of user 7 named `"a"`. -/
def c2Media : Media :=
  { mediaBase with
    id := 100
    userId := 7
    originalName := "a"
    url := "u-a"
    isLocked := true
    lockedAt := some 0 }

/-- A live locked-folder session for user 7 (expires far in the future). -/
def c2Session : LockedFolder :=
  { userId := 7, password := "h", hasAccess := true, lastAccess := some 0,
    sessionExpires := some 10000000 }

/-- The database for the C2 scenario. -/
def c2DB : DB := { albums := [], media := [c2Media] }

/-- C2: the claim says the 16-character token returned by the locked listing
is deterministically re-derivable, so presenting it to the access-by-
reference route at any later time succeeds.  In the code the token is
`sha256(originalName + Date.now())`, so it changes with the clock: listing
at time 0 yields token `"4e1195df020de59e"`, presenting that very token one
millisecond later is rejected with `403` (the route re-derives
`sha256("a" + "1")` and gets a different token), while presenting it at the
same instant it was minted would have succeeded. -/
theorem c2_locked_reference_does_not_roundtrip :
    listLockedRoute 0 7 [c2Session] c2DB =
      Except.ok [{ id := 100, hash := "4e1195df020de59e", url := "u-a" }] ∧
    accessLockedRoute 0 7 "4e1195df020de59e" [c2Session] c2DB = Except.ok "u-a" ∧
    accessLockedRoute 1 7 "4e1195df020de59e" [c2Session] c2DB = Except.error 403 := by
  refine ⟨by decide, by decide, by decide⟩

/-! ### C9 — refreshing the locked-folder session -/

/-- C9: `RefreshAccess` fails with `401` whenever the session record is
absent, `hasAccess` is false, or `sessionExpires` is at or before `now` (or
`null`), leaving the sessions unchanged; when the session is live it
answers `ok (now + 5 min)` and the stored record's `sessionExpires` becomes
exactly `now + 5 min` (computed from the call time, not from the original
grant), with `lastAccess` slid to `now`. -/
theorem c9_refresh_access_spec (now uid : Nat) (sessions : List LockedFolder) :
    (sessions.find? (fun s => s.userId == uid) = none →
      refreshAccessRoute now uid sessions = (Except.error 401, sessions)) ∧
    (∀ lf, sessions.find? (fun s => s.userId == uid) = some lf →
      (lf.hasAccess = false →
        refreshAccessRoute now uid sessions = (Except.error 401, sessions)) ∧
      (lf.sessionExpires = none →
        refreshAccessRoute now uid sessions = (Except.error 401, sessions)) ∧
      (∀ t, lf.sessionExpires = some t → t ≤ now →
        refreshAccessRoute now uid sessions = (Except.error 401, sessions)) ∧
      (lf.hasAccess = true → ∀ t, lf.sessionExpires = some t → now < t →
        (refreshAccessRoute now uid sessions).1 = Except.ok (now + sessionWindowMs) ∧
        (refreshAccessRoute now uid sessions).2.find? (fun s => s.userId == uid) =
          some { lf with sessionExpires := some (now + sessionWindowMs),
                         lastAccess := some now })) := by
  constructor
  · intro h
    simp [refreshAccessRoute, h]
  · intro lf hf
    refine ⟨?_, ?_, ?_, ?_⟩
    · intro hacc
      simp [refreshAccessRoute, hf, hacc]
    · intro hexp
      by_cases hacc : lf.hasAccess
      · simp [refreshAccessRoute, hf, hacc, hexp]
      · rw [Bool.not_eq_true] at hacc
        simp [refreshAccessRoute, hf, hacc]
    · intro t ht hle
      by_cases hacc : lf.hasAccess
      · simp [refreshAccessRoute, hf, hacc, ht, hle]
      · rw [Bool.not_eq_true] at hacc
        simp [refreshAccessRoute, hf, hacc]
    · intro hacc t ht hlt
      have hroute : refreshAccessRoute now uid sessions =
          (Except.ok (now + sessionWindowMs),
           (findOneAndUpdate (fun s => s.userId == uid)
             (fun s => { s with sessionExpires := some (now + sessionWindowMs),
                                lastAccess := some now }) sessions).2) := by
        simp [refreshAccessRoute, hf, hacc, ht, Nat.not_le.mpr hlt]
      refine ⟨by rw [hroute], ?_⟩
      rw [hroute]
      have hp : (fun s => s.userId == uid)
          ({ lf with sessionExpires := some (now + sessionWindowMs),
                     lastAccess := some now } : LockedFolder) = true := by
        have := List.find?_some hf
        simpa using this
      exact findOneAndUpdate_find? _ _ sessions lf hf hp

/-- A live session for user 7 expiring at time 1000. -/
def c9Session : LockedFolder :=
  { userId := 7, password := "h", hasAccess := true, lastAccess := some 0,
    sessionExpires := some 1000 }

/-- C9 witness: refreshing the live session at time 500 yields
`ok (500 + 5 min) = ok 300500` and stores that exact expiry; refreshing the
same session at time 2000 (after expiry) is rejected with the sessions
unchanged. -/
theorem c9_refresh_access_witness :
    (refreshAccessRoute 500 7 [c9Session]).1 = Except.ok 300500 ∧
    (refreshAccessRoute 500 7 [c9Session]).2.find? (fun s => s.userId == 7) =
      some { c9Session with sessionExpires := some 300500, lastAccess := some 500 } ∧
    refreshAccessRoute 2000 7 [c9Session] = (Except.error 401, [c9Session]) := by
  have hf : ([c9Session].find? (fun s => s.userId == 7)) = some c9Session := by decide
  have hlive := ((c9_refresh_access_spec 500 7 [c9Session]).2 c9Session hf).2.2.2
    (by decide) 1000 (by decide) (by decide)
  have hexp := ((c9_refresh_access_spec 2000 7 [c9Session]).2 c9Session hf).2.2.1
    1000 (by decide) (by decide)
  have e1 : (500 : Nat) + sessionWindowMs = 300500 := by decide
  refine ⟨?_, ?_, hexp⟩
  · rw [hlive.1, e1]
  · rw [hlive.2, e1]

/-! ### C4 — storage quota -/

/-- The specification-side sum: total size of exactly the user's non-trashed
media (`size` read as `size || 0`). -/
def usedSum (userId : Nat) (ms : List Media) : Nat :=
  ((ms.filter (fun m => m.userId == userId && m.isInTrash == false)).map
    (fun m => m.size.getD 0)).sum

theorem foldl_add_size : ∀ (l : List Media) (c : Nat),
    l.foldl (fun acc item => acc + item.size.getD 0) c = c + (l.map (fun m => m.size.getD 0)).sum := by
  intro l
  induction l with
  | nil => intro c; simp
  | cons x xs ih => intro c; simp [List.foldl_cons, ih, Nat.add_assoc]

theorem calculateUserStorage_used (u : Nat) (ms : List Media) :
    (calculateUserStorage u ms).used = usedSum u ms := by
  simp [calculateUserStorage, usedSum, foldl_add_size]

theorem usedSum_append (u : Nat) (l1 l2 : List Media) :
    usedSum u (l1 ++ l2) = usedSum u l1 + usedSum u l2 := by
  simp [usedSum, List.filter_append]

theorem usedSum_cons (u : Nat) (x : Media) (l : List Media) :
    usedSum u (x :: l) =
      (if (x.userId == u && x.isInTrash == false) = true then x.size.getD 0 else 0) +
        usedSum u l := by
  rw [usedSum, usedSum, List.filter_cons]
  by_cases hx : (x.userId == u && x.isInTrash == false) = true
  · rw [if_pos hx, if_pos hx, List.map_cons, List.sum_cons]
  · rw [if_neg hx, if_neg hx, Nat.zero_add]

/-- C4: the computed quota's `used` is the sum of the sizes of exactly the
user's media with `isInTrash = false` (trashed excluded, locked included),
`total` is the fixed 15 GB ceiling, `percentage = used / total * 100`;
trashing an owned, not-yet-trashed media item removes its size from `used`,
and toggling the lock on any media item leaves `used` unchanged. -/
theorem c4_quota_spec (now u mid : Nat) (db : DB) (ms : List Media) (m : Media) :
    (calculateUserStorage u ms).used = usedSum u ms ∧
    (calculateUserStorage u ms).total = storageLimit ∧
    (calculateUserStorage u ms).percentage =
      ((calculateUserStorage u ms).used : ℚ) / (storageLimit : ℚ) * 100 ∧
    (db.media.find? (fun x => x.id == mid && x.userId == u) = some m →
      m.isInTrash = false →
      (calculateUserStorage u (trashRoute now u mid db).2.media).used + m.size.getD 0 =
        (calculateUserStorage u db.media).used) ∧
    (calculateUserStorage u (lockToggleRoute now u mid db).2.media).used =
      (calculateUserStorage u db.media).used := by
  refine ⟨calculateUserStorage_used u ms, rfl, ?_, ?_, ?_⟩
  · simp [calculateUserStorage]
  · -- trashing removes the item's size from `used`
    intro hfind htr
    have hpm := List.find?_some hfind
    have hmu : m.userId = u := by
      simp only [Bool.and_eq_true, beq_iff_eq] at hpm
      exact hpm.2
    have h1 : (findOneAndUpdate (fun x => x.id == mid && x.userId == u)
        (fun x => { x with isInTrash := true, trashedAt := some now,
                           scheduledDeleteAt := some (now + trashGraceMs) }) db.media).1 =
        some { m with isInTrash := true, trashedAt := some now,
                      scheduledDeleteAt := some (now + trashGraceMs) } := by
      rw [findOneAndUpdate_fst, hfind]; rfl
    rcases findOneAndUpdate_decomp _ _ db.media _ h1 with ⟨l1, x, l2, hl, hpre, hpx, hyx, hsnd⟩
    have hxm : x = m := by
      have hfx : db.media.find? (fun x => x.id == mid && x.userId == u) = some x := by
        rw [hl]; exact find?_prefix _ hpre hpx l2
      rw [hfind] at hfx
      exact (Option.some.inj hfx).symm
    subst hxm
    have hroute : (trashRoute now u mid db).2.media = l1 ++
        { x with isInTrash := true, trashedAt := some now,
                 scheduledDeleteAt := some (now + trashGraceMs) } :: l2 := by
      simp only [trashRoute, h1]
      exact hsnd
    rw [calculateUserStorage_used, calculateUserStorage_used, hroute, hl,
      usedSum_append, usedSum_append, usedSum_cons, usedSum_cons]
    have hq1 : ∀ y : Media,
        ((({ y with isInTrash := true
                    trashedAt := some now
                    scheduledDeleteAt := some (now + trashGraceMs) } : Media).userId == u) &&
          (({ y with isInTrash := true
                     trashedAt := some now
                     scheduledDeleteAt := some (now + trashGraceMs) } : Media).isInTrash
            == false)) = false := by
      intro y; simp
    have hq2 : ((x.userId == u) && (x.isInTrash == false)) = true := by
      simp [hmu, htr]
    rw [hq1, hq2]
    simp [Nat.add_comm, Nat.add_assoc, Nat.add_left_comm]
  · -- toggling the lock never changes `used`
    rcases hcase : db.media.find? (fun x => x.id == mid && x.userId == u) with _ | m0
    · have h1 : (findOneAndUpdate (fun x => x.id == mid && x.userId == u)
          (fun x => { x with isLocked := !x.isLocked,
                             lockedAt := if x.isLocked then none else some now }) db.media).1 =
          none := by
        rw [findOneAndUpdate_fst, hcase]; rfl
      simp [lockToggleRoute, h1]
    · have h1 : (findOneAndUpdate (fun x => x.id == mid && x.userId == u)
          (fun x => { x with isLocked := !x.isLocked,
                             lockedAt := if x.isLocked then none else some now }) db.media).1 =
          some { m0 with isLocked := !m0.isLocked,
                         lockedAt := if m0.isLocked then none else some now } := by
        rw [findOneAndUpdate_fst, hcase]; rfl
      rcases findOneAndUpdate_decomp _ _ db.media _ h1 with ⟨l1, x, l2, hl, hpre, hpx, hyx, hsnd⟩
      have hroute : (lockToggleRoute now u mid db).2.media = l1 ++
          { x with isLocked := !x.isLocked,
                   lockedAt := if x.isLocked then none else some now } :: l2 := by
        simp only [lockToggleRoute, h1]
        exact hsnd
      rw [calculateUserStorage_used, calculateUserStorage_used, hroute, hl,
        usedSum_append, usedSum_append, usedSum_cons, usedSum_cons]

/-- The C4 witness database: user 7 owns media 1 (3 bytes, active) and
media 2 (5 bytes, active, locked); user 8 owns media 3 (7 bytes); media 4
of user 7 is in the trash (11 bytes). -/
def c4DB : DB :=
  { albums := []
    media :=
      [ { mediaBase with id := 1, userId := 7, size := some 3 },
        { mediaBase with id := 2, userId := 7, size := some 5, isLocked := true },
        { mediaBase with id := 3, userId := 8, size := some 7 },
        { mediaBase with id := 4, userId := 7, size := some 11, isInTrash := true,
                         trashedAt := some 0, scheduledDeleteAt := some trashGraceMs } ] }

/-- C4 witness: on the concrete database, `used` is `3 + 5 = 8` for user 7
(media 2 counts although locked, media 4 does not count because trashed,
media 3 belongs to another user); trashing media 1 brings `used + 3` back to
`8`, and toggling the lock of media 2 leaves `used` at `8`. -/
theorem c4_quota_witness :
    (calculateUserStorage 7 c4DB.media).used = usedSum 7 c4DB.media ∧
    usedSum 7 c4DB.media = 8 ∧
    (calculateUserStorage 7 c4DB.media).total = storageLimit ∧
    (calculateUserStorage 7 (trashRoute 100 7 1 c4DB).2.media).used + 3 =
      (calculateUserStorage 7 c4DB.media).used ∧
    (calculateUserStorage 7 (lockToggleRoute 100 7 2 c4DB).2.media).used =
      (calculateUserStorage 7 c4DB.media).used := by
  have h := c4_quota_spec 100 7 1 c4DB c4DB.media
    { mediaBase with id := 1, userId := 7, size := some 3 }
  have h2 := c4_quota_spec 100 7 2 c4DB c4DB.media
    { mediaBase with id := 2, userId := 7, size := some 5, isLocked := true }
  exact ⟨h.1, by decide, h.2.1, h.2.2.2.1 (by decide) (by decide), h2.2.2.2.2⟩

/-! ### C5 — the trash transition -/

/-- C5 (amended): `Trash(mediaId)` by the owning user on an existing,
not-yet-trashed media item succeeds, setting `isInTrash`, `trashedAt = now`
and `scheduledDeleteAt = now + 15 days`, and returns the updated quota in
the response; it fails with `404` exactly when no media with that id is
owned by the caller.  (The original claim also listed "already trashed" as a
failure condition; the route's filter has no `isInTrash` clause, so an
already-trashed item is simply updated again — see the counterexample.) -/
theorem c5_trash_spec (now u mid : Nat) (db : DB) (m : Media) :
    (db.media.find? (fun x => x.id == mid && x.userId == u) = none →
      trashRoute now u mid db = (Except.error 404, db)) ∧
    (db.media.find? (fun x => x.id == mid && x.userId == u) = some m →
      m.isInTrash = false →
      (trashRoute now u mid db).1 = Except.ok (now + trashGraceMs,
        calculateUserStorage u (trashRoute now u mid db).2.media) ∧
      (trashRoute now u mid db).2.media.find? (fun x => x.id == mid && x.userId == u) =
        some { m with isInTrash := true
                      trashedAt := some now
                      scheduledDeleteAt := some (now + trashGraceMs) }) := by
  constructor
  · intro hnone
    have h1 : (findOneAndUpdate (fun x => x.id == mid && x.userId == u)
        (fun x => { x with isInTrash := true, trashedAt := some now,
                           scheduledDeleteAt := some (now + trashGraceMs) }) db.media).1 =
        none := by
      simp [findOneAndUpdate_fst, hnone]
    simp [trashRoute, h1]
  · intro hfind _
    have h1 : (findOneAndUpdate (fun x => x.id == mid && x.userId == u)
        (fun x => { x with isInTrash := true, trashedAt := some now,
                           scheduledDeleteAt := some (now + trashGraceMs) }) db.media).1 =
        some { m with isInTrash := true, trashedAt := some now,
                      scheduledDeleteAt := some (now + trashGraceMs) } := by
      rw [findOneAndUpdate_fst, hfind]; rfl
    have hpm := List.find?_some hfind
    have hpf : (fun x : Media => x.id == mid && x.userId == u)
        ({ m with isInTrash := true, trashedAt := some now,
                  scheduledDeleteAt := some (now + trashGraceMs) } : Media) = true := by
      simpa using hpm
    constructor
    · simp [trashRoute, h1]
    · have hsnd : (trashRoute now u mid db).2.media =
          (findOneAndUpdate (fun x => x.id == mid && x.userId == u)
            (fun x => { x with isInTrash := true, trashedAt := some now,
                               scheduledDeleteAt := some (now + trashGraceMs) }) db.media).2 := by
        simp [trashRoute, h1]
      rw [hsnd]
      exact findOneAndUpdate_find? _ _ db.media m hfind hpf

/-- An already-trashed media item of user 7 (trashed at time 0). -/
def c5Media : Media :=
  { mediaBase with
    id := 1
    userId := 7
    size := some 5
    isInTrash := true
    trashedAt := some 0
    scheduledDeleteAt := some trashGraceMs }

/-- The C5/C10 counterexample database: one already-trashed item. -/
def c5DB : DB := { albums := [], media := [c5Media] }

/-- C5 counterexample: the claim says `Trash` fails when the media is
already trashed; on the concrete database the route succeeds (`200`, not an
error) on an item whose `isInTrash` is already true. -/
theorem c5_trash_already_trashed_succeeds :
    c5Media.isInTrash = true ∧ (trashRoute 100 7 1 c5DB).1.isOk = true := by
  exact ⟨by decide, by decide⟩

/-- A fresh (untrashed) media item of user 7, for the C5 witness. -/
def c5Fresh : Media := { mediaBase with id := 2, userId := 7, size := some 5 }

/-- The C5 witness database. -/
def c5DB2 : DB := { albums := [], media := [c5Fresh] }

/-- C5 witness: trashing the fresh item at time 50 succeeds with the 15-day
deadline and the updated record; trashing a nonexistent id 99 fails with
`404` leaving the database unchanged. -/
theorem c5_trash_witness :
    ((trashRoute 50 7 2 c5DB2).1 = Except.ok (50 + trashGraceMs,
      calculateUserStorage 7 (trashRoute 50 7 2 c5DB2).2.media) ∧
     (trashRoute 50 7 2 c5DB2).2.media.find? (fun x => x.id == 2 && x.userId == 7) =
       some { c5Fresh with isInTrash := true
                           trashedAt := some 50
                           scheduledDeleteAt := some (50 + trashGraceMs) }) ∧
    trashRoute 50 7 99 c5DB2 = (Except.error 404, c5DB2) := by
  refine ⟨(c5_trash_spec 50 7 2 c5DB2 c5Fresh).2 (by decide) (by decide), ?_⟩
  exact (c5_trash_spec 50 7 99 c5DB2 c5Fresh).1 (by decide)

/-! ### C6 — consistency of the three trash fields -/

/-- The invariant claimed for every media record: `isInTrash` is true iff
`trashedAt` is set iff `scheduledDeleteAt` is set, and whenever trashed,
`scheduledDeleteAt = trashedAt + 15 days`. -/
def MediaInv (m : Media) : Prop :=
  (m.isInTrash = true ↔ m.trashedAt ≠ none) ∧
  (m.isInTrash = true ↔ m.scheduledDeleteAt ≠ none) ∧
  ∀ t, m.trashedAt = some t → m.scheduledDeleteAt = some (t + trashGraceMs)

/-- C6: every operation of the media lifecycle — upload, trash, restore,
bulk trash, bulk restore — preserves the mutual consistency of the three
trash fields on every media record. -/
theorem c6_trash_fields_consistent (db : DB) (now u mid newId : Nat) (ids : List Nat)
    (name url pubid mt : String) (sz : Option Nat) (alb : Option Nat)
    (hdb : ∀ m ∈ db.media, MediaInv m) :
    (∀ m ∈ (uploadMedia now u newId name url pubid mt sz alb db).media, MediaInv m) ∧
    (∀ m ∈ (trashRoute now u mid db).2.media, MediaInv m) ∧
    (∀ m ∈ (restoreRoute u mid db).2.media, MediaInv m) ∧
    (∀ m ∈ (bulkTrashRoute now u ids db).2.media, MediaInv m) ∧
    (∀ m ∈ (bulkRestoreRoute u ids db).2.media, MediaInv m) := by
  have hdoc : MediaInv (uploadDoc now u newId name url pubid mt sz alb) := by
    simp [MediaInv, uploadDoc]
  have htrashed : ∀ x : Media, MediaInv { x with
      isInTrash := true
      trashedAt := some now
      scheduledDeleteAt := some (now + trashGraceMs) } := by
    intro x
    simp [MediaInv]
  have hrestored : ∀ x : Media, MediaInv { x with
      isInTrash := false
      trashedAt := none
      scheduledDeleteAt := none } := by
    intro x
    simp [MediaInv]
  refine ⟨?_, ?_, ?_, ?_, ?_⟩
  · -- upload appends a well-formed record and touches only the albums
    have hm : (uploadMedia now u newId name url pubid mt sz alb db).media =
        db.media ++ [uploadDoc now u newId name url pubid mt sz alb] := rfl
    rw [hm]
    intro m hmem
    rcases List.mem_append.mp hmem with h | h
    · exact hdb m h
    · rw [List.mem_singleton.mp h]
      exact hdoc
  · -- trash
    intro m hmem
    rcases h1 : (findOneAndUpdate (fun x => x.id == mid && x.userId == u)
        (fun x => { x with isInTrash := true, trashedAt := some now,
                           scheduledDeleteAt := some (now + trashGraceMs) }) db.media).1
      with _ | y
    · have h2 : (trashRoute now u mid db).2 = db := by simp [trashRoute, h1]
      rw [h2] at hmem
      exact hdb m hmem
    · have h2 : (trashRoute now u mid db).2.media =
          (findOneAndUpdate (fun x => x.id == mid && x.userId == u)
            (fun x => { x with isInTrash := true, trashedAt := some now,
                               scheduledDeleteAt := some (now + trashGraceMs) }) db.media).2 := by
        simp [trashRoute, h1]
      rw [h2] at hmem
      rcases findOneAndUpdate_mem _ _ db.media m hmem with h | ⟨x, _, _, hx⟩
      · exact hdb m h
      · rw [hx]; exact htrashed x
  · -- restore
    intro m hmem
    rcases h1 : (findOneAndUpdate
        (fun x => x.id == mid && x.userId == u && x.isInTrash == true)
        (fun x => { x with isInTrash := false, trashedAt := none,
                           scheduledDeleteAt := none }) db.media).1
      with _ | y
    · have h2 : (restoreRoute u mid db).2 = db := by
        simp only [restoreRoute]
        rw [h1]
      rw [h2] at hmem
      exact hdb m hmem
    · have h2 : (restoreRoute u mid db).2.media =
          (findOneAndUpdate (fun x => x.id == mid && x.userId == u && x.isInTrash == true)
            (fun x => { x with isInTrash := false, trashedAt := none,
                               scheduledDeleteAt := none }) db.media).2 := by
        simp only [restoreRoute]
        rw [h1]
      rw [h2] at hmem
      rcases findOneAndUpdate_mem _ _ db.media m hmem with h | ⟨x, _, _, hx⟩
      · exact hdb m h
      · rw [hx]; exact hrestored x
  · -- bulk trash
    intro m hmem
    by_cases hids : ids.isEmpty
    · have h2 : (bulkTrashRoute now u ids db).2 = db := by simp [bulkTrashRoute, hids]
      rw [h2] at hmem
      exact hdb m hmem
    · rw [Bool.not_eq_true] at hids
      have h2 : (bulkTrashRoute now u ids db).2.media =
          updateMany (fun x => x.id ∈ ids && x.userId == u)
            (fun x => { x with isInTrash := true, trashedAt := some now,
                               scheduledDeleteAt := some (now + trashGraceMs) }) db.media := by
        simp [bulkTrashRoute, hids]
      rw [h2] at hmem
      rcases List.mem_map.mp hmem with ⟨x, hxmem, hx⟩
      by_cases hq : (x.id ∈ ids && x.userId == u) = true
      · rw [← hx, if_pos hq]; exact htrashed x
      · rw [← hx, if_neg hq]; exact hdb x hxmem
  · -- bulk restore
    intro m hmem
    by_cases hids : ids.isEmpty
    · have h2 : (bulkRestoreRoute u ids db).2 = db := by simp [bulkRestoreRoute, hids]
      rw [h2] at hmem
      exact hdb m hmem
    · rw [Bool.not_eq_true] at hids
      have h2 : (bulkRestoreRoute u ids db).2.media =
          updateMany (fun x => x.id ∈ ids && x.userId == u && x.isInTrash == true)
            (fun x => { x with isInTrash := false, trashedAt := none,
                               scheduledDeleteAt := none }) db.media := by
        simp [bulkRestoreRoute, hids]
      rw [h2] at hmem
      rcases List.mem_map.mp hmem with ⟨x, hxmem, hx⟩
      by_cases hq : (x.id ∈ ids && x.userId == u && x.isInTrash == true) = true
      · rw [← hx, if_pos hq]; exact hrestored x
      · rw [← hx, if_neg hq]; exact hdb x hxmem

/-- The C6 witness database (no media yet, so the invariant holds
vacuously). -/
def c6DB : DB := { albums := [], media := [] }

/-- C6 witness: applying the preservation theorem to the empty database and
one concrete instance of each operation. -/
theorem c6_trash_fields_witness :
    (∀ m ∈ (uploadMedia 5 7 1 "n" "u" "p" "image" (some 3) none c6DB).media, MediaInv m) ∧
    (∀ m ∈ (trashRoute 5 7 1 c6DB).2.media, MediaInv m) ∧
    (∀ m ∈ (restoreRoute 7 1 c6DB).2.media, MediaInv m) ∧
    (∀ m ∈ (bulkTrashRoute 5 7 [1] c6DB).2.media, MediaInv m) ∧
    (∀ m ∈ (bulkRestoreRoute 7 [1] c6DB).2.media, MediaInv m) :=
  c6_trash_fields_consistent c6DB 5 7 1 1 [1] "n" "u" "p" "image" (some 3) none
    (by intro m hm; exact absurd hm (by simp [c6DB]))

/-! ### C10 — re-trashing an already-trashed item -/

theorem find?_updateMany (p q : α → Bool) (f : α → α) (hq : ∀ z, p (f z) = p z) :
    ∀ (l : List α) (x : α), l.find? p = some x →
      (updateMany q f l).find? p = some (if q x then f x else x) := by
  intro l
  induction l with
  | nil => intro x h; exact absurd h (by simp)
  | cons z zs ih =>
      intro x h
      by_cases hz : p z
      · rw [List.find?_cons_of_pos _ hz] at h
        have hx : x = z := (Option.some.inj h).symm
        subst hx
        have hmapped : p (if q x then f x else x) = true := by
          by_cases hqx : q x
          · rw [if_pos hqx, hq]; exact hz
          · rw [if_neg hqx]; exact hz
        simp only [updateMany, List.map_cons]
        rw [List.find?_cons_of_pos _ hmapped]
      · rw [Bool.not_eq_true] at hz
        rw [List.find?_cons_of_neg _ (by simp [hz])] at h
        have hzm : p (if q z then f z else z) = false := by
          by_cases hqz : q z
          · rw [if_pos hqz, hq]; exact hz
          · rw [if_neg hqz]; exact hz
        simp only [updateMany, List.map_cons]
        rw [List.find?_cons_of_neg _ (by simp [hzm])]
        exact ih x h

/-- C10: `Trash` and `BulkTrash` by the owner on an already-trashed item do
not fail — the single route succeeds and overwrites `trashedAt` with the
call time and `scheduledDeleteAt` with call time + 15 days, the bulk route
(with a nonempty id list containing the item) does the same, and the
overwrite postpones the previously scheduled hard-deletion time. -/
theorem c10_retrash_restarts_grace (now u mid : Nat) (ids : List Nat) (db : DB) (m : Media)
    (hfind : db.media.find? (fun x => x.id == mid && x.userId == u) = some m)
    (htr : m.isInTrash = true) :
    ((trashRoute now u mid db).1.isOk = true ∧
     (trashRoute now u mid db).2.media.find? (fun x => x.id == mid && x.userId == u) =
       some { m with isInTrash := true
                     trashedAt := some now
                     scheduledDeleteAt := some (now + trashGraceMs) }) ∧
    (mid ∈ ids → ids.isEmpty = false →
      (bulkTrashRoute now u ids db).1.isOk = true ∧
      (bulkTrashRoute now u ids db).2.media.find? (fun x => x.id == mid && x.userId == u) =
        some { m with isInTrash := true
                      trashedAt := some now
                      scheduledDeleteAt := some (now + trashGraceMs) }) ∧
    (∀ t0 s0, m.trashedAt = some t0 → t0 ≤ now → m.scheduledDeleteAt = some s0 →
      s0 = t0 + trashGraceMs → s0 ≤ now + trashGraceMs) := by
  have hpm := List.find?_some hfind
  have h1 : (findOneAndUpdate (fun x => x.id == mid && x.userId == u)
      (fun x => { x with isInTrash := true, trashedAt := some now,
                         scheduledDeleteAt := some (now + trashGraceMs) }) db.media).1 =
      some { m with isInTrash := true, trashedAt := some now,
                    scheduledDeleteAt := some (now + trashGraceMs) } := by
    rw [findOneAndUpdate_fst, hfind]; rfl
  refine ⟨⟨?_, ?_⟩, ?_, ?_⟩
  · simp [trashRoute, h1, Except.isOk, Except.toBool]
  · have hsnd : (trashRoute now u mid db).2.media =
        (findOneAndUpdate (fun x => x.id == mid && x.userId == u)
          (fun x => { x with isInTrash := true, trashedAt := some now,
                             scheduledDeleteAt := some (now + trashGraceMs) }) db.media).2 := by
      simp [trashRoute, h1]
    rw [hsnd]
    exact findOneAndUpdate_find? _ _ db.media m hfind (by simpa using hpm)
  · intro hmemids hne
    have hmu : m.userId = u := by
      simp only [Bool.and_eq_true, beq_iff_eq] at hpm
      exact hpm.2
    have hmid : m.id = mid := by
      simp only [Bool.and_eq_true, beq_iff_eq] at hpm
      exact hpm.1
    have hqm : (m.id ∈ ids && m.userId == u) = true := by
      simp [hmid, hmu, hmemids]
    have hfm := find?_updateMany (fun x => x.id == mid && x.userId == u)
      (fun x => x.id ∈ ids && x.userId == u)
      (fun x => { x with isInTrash := true, trashedAt := some now,
                         scheduledDeleteAt := some (now + trashGraceMs) })
      (fun z => rfl) db.media m hfind
    rw [if_pos hqm] at hfm
    constructor
    · simp [bulkTrashRoute, hne, Except.isOk, Except.toBool]
    · have hsnd : (bulkTrashRoute now u ids db).2.media =
          updateMany (fun x => x.id ∈ ids && x.userId == u)
            (fun x => { x with isInTrash := true, trashedAt := some now,
                               scheduledDeleteAt := some (now + trashGraceMs) }) db.media := by
        simp [bulkTrashRoute, hne]
      rw [hsnd]
      exact hfm
  · intro t0 s0 _ hle _ hs0
    omega

/-- C10 witness: re-trashing the already-trashed item (trashed at 0,
originally scheduled for deletion at `trashGraceMs`) at time 100 succeeds in
both the single and the bulk route, overwrites the schedule to
`100 + trashGraceMs`, and the old deadline precedes the new one. -/
theorem c10_retrash_witness :
    ((trashRoute 100 7 1 c5DB).1.isOk = true ∧
     (trashRoute 100 7 1 c5DB).2.media.find? (fun x => x.id == 1 && x.userId == 7) =
       some { c5Media with isInTrash := true
                           trashedAt := some 100
                           scheduledDeleteAt := some (100 + trashGraceMs) }) ∧
    ((bulkTrashRoute 100 7 [1] c5DB).1.isOk = true ∧
     (bulkTrashRoute 100 7 [1] c5DB).2.media.find? (fun x => x.id == 1 && x.userId == 7) =
       some { c5Media with isInTrash := true
                           trashedAt := some 100
                           scheduledDeleteAt := some (100 + trashGraceMs) }) ∧
    trashGraceMs ≤ 100 + trashGraceMs := by
  have h := c10_retrash_restarts_grace 100 7 1 [1] c5DB c5Media (by decide) (by decide)
  exact ⟨h.1, h.2.1 (by decide) (by decide),
    h.2.2 0 trashGraceMs (by decide) (by decide) (by decide) (by decide)⟩

/-! ### C7 — cover recomputation on remove-media and move-media -/

theorem find?_replace (p : α → Bool) (l1 l2 : List α) (x y : α)
    (hx : p x = false) (hy : p y = false) :
    (l1 ++ y :: l2).find? p = (l1 ++ x :: l2).find? p := by
  induction l1 with
  | nil => simp [List.find?, hx, hy]
  | cons z zs ih =>
      by_cases hz : p z
      · simp [List.find?, hz]
      · rw [Bool.not_eq_true] at hz
        simp only [List.cons_append, List.find?, hz]
        exact ih

/-- C7 (amended): after `RemoveMedia` the affected album's cover is
recomputed — empty string when no members remain, else the URL of the
now-first member (when that media record exists).  `MoveMedia`, however,
does NOT recompute the source album's cover (it stays whatever it was, even
if it pointed at the moved item), and it sets the destination's cover to the
moved media's URL only when the destination ends up with exactly one member;
otherwise the destination cover is also left unchanged. -/
theorem c7_cover_spec (u aid mid tgt src : Nat) (db : DB)
    (alb srcAlb tgtAlb : Album) (media : Media)
    (hnodup : (db.albums.map (fun a => a.id)).Nodup) :
    (db.albums.find? (fun a => a.id == aid && a.userId == u) = some alb →
      (removeMediaRoute u aid mid db).1 = Except.ok () ∧
      (alb.media.filter (fun x => x ≠ mid) = [] →
        (removeMediaRoute u aid mid db).2.albums.find? (fun a => a.id == aid) =
          some { alb with media := alb.media.filter (fun x => x ≠ mid), coverUrl := "" }) ∧
      (∀ first rest fm, alb.media.filter (fun x => x ≠ mid) = first :: rest →
        (removeMediaRoute u aid mid db).2.media.find? (fun m => m.id == first) = some fm →
        (removeMediaRoute u aid mid db).2.albums.find? (fun a => a.id == aid) =
          some { alb with media := alb.media.filter (fun x => x ≠ mid),
                          coverUrl := fm.url })) ∧
    (db.media.find? (fun m => m.id == mid && m.userId == u) = some media →
      media.albumId = some src →
      db.albums.find? (fun a => a.id == src && a.userId == u) = some srcAlb →
      db.albums.find? (fun a => a.id == tgt && a.userId == u) = some tgtAlb →
      src ≠ tgt →
      (moveMediaRoute mid (some tgt) u db).1 = Except.ok () ∧
      (moveMediaRoute mid (some tgt) u db).2.albums.find? (fun a => a.id == src) =
        some { srcAlb with media := srcAlb.media.filter (fun x => x ≠ mid) } ∧
      (moveMediaRoute mid (some tgt) u db).2.albums.find? (fun a => a.id == tgt) =
        some (if (({ tgtAlb with media := addToSet mid tgtAlb.media } : Album).media.length
                  == 1) = true then
                { tgtAlb with media := addToSet mid tgtAlb.media, coverUrl := media.url }
              else { tgtAlb with media := addToSet mid tgtAlb.media })) := by
  constructor
  · -- RemoveMedia
    intro hfind
    have halbid : alb.id = aid := by
      have := List.find?_some hfind
      simp only [Bool.and_eq_true, beq_iff_eq] at this
      exact this.1
    have h1 : (findOneAndUpdate (fun a => a.id == aid && a.userId == u)
        (fun a => { a with media := a.media.filter (fun x => x ≠ mid) }) db.albums).1 =
        some { alb with media := alb.media.filter (fun x => x ≠ mid) } := by
      rw [findOneAndUpdate_fst, hfind]; rfl
    rcases findOneAndUpdate_decomp _ _ db.albums _ h1 with ⟨l1, x, l2, hl, hpre, hpx, hyx, hsnd⟩
    have hxalb : alb = x := by
      have hfx : db.albums.find? (fun a => a.id == aid && a.userId == u) = some x := by
        rw [hl]; exact find?_prefix _ hpre hpx l2
      rw [hfind] at hfx
      exact Option.some.inj hfx
    subst hxalb
    have hpre2 : ∀ z ∈ l1, (z.id == aid) = false := by
      intro z hz
      have := nodup_mid (g := fun a : Album => a.id) (hl ▸ hnodup) z
        (List.mem_append.mpr (Or.inl hz))
      simp only [halbid] at this
      simpa using this
    have hpid : (({ alb with media := alb.media.filter (fun x => x ≠ mid) } : Album).id
        == aid) = true := by simpa using halbid
    refine ⟨?_, ?_, ?_⟩
    · -- success
      simp only [removeMediaRoute, h1]
      split
      · rfl
      · split
        · rfl
        · split
          · rfl
          · rfl
    · -- no members left: cover becomes the empty string
      intro hempty
      have hroute : (removeMediaRoute u aid mid db).2.albums =
          (findOneAndUpdate (fun a => a.id == aid)
            (fun a : Album => { a with coverUrl := "" })
            (findOneAndUpdate (fun a => a.id == aid && a.userId == u)
              (fun a : Album => { a with media := a.media.filter (fun x => x ≠ mid) })
              db.albums).2).2 := by
        simp only [removeMediaRoute, h1]
        simp only [hempty]
      rw [hroute, hsnd]
      have hfound : (l1 ++ { alb with media := alb.media.filter (fun x => x ≠ mid) } :: l2).find?
          (fun a => a.id == aid) = some { alb with media := alb.media.filter (fun x => x ≠ mid) } :=
        find?_prefix _ hpre2 hpid l2
      have hset := findOneAndUpdate_find? (fun a => a.id == aid)
        (fun a : Album => { a with coverUrl := "" }) _ _ hfound (by simpa using halbid)
      simpa using hset
    · -- members remain: cover becomes the first member's URL
      intro first rest fm hcons hfm
      have hmedia : (removeMediaRoute u aid mid db).2.media =
          (findOneAndUpdate (fun m => m.id == mid)
            (fun m : Media => { m with albumId := none }) db.media).2 := by
        simp only [removeMediaRoute, h1]
        simp only [hcons]
        rcases hfm2 : (findOneAndUpdate (fun m => m.id == mid)
            (fun m : Media => { m with albumId := none }) db.media).2.find?
            (fun m => m.id == first)
          with _ | fm2
        · simp [hfm2]
        · by_cases hcov : alb.coverUrl ≠ fm2.url
          · simp [hfm2, hcov]
          · simp [hfm2, hcov]
      rw [hmedia] at hfm
      have hfound : (l1 ++ { alb with media := alb.media.filter (fun x => x ≠ mid) } :: l2).find?
          (fun a => a.id == aid) = some { alb with media := alb.media.filter (fun x => x ≠ mid) } :=
        find?_prefix _ hpre2 hpid l2
      by_cases hcov : alb.coverUrl ≠ fm.url
      · have hroute : (removeMediaRoute u aid mid db).2.albums =
            (findOneAndUpdate (fun a => a.id == aid)
              (fun a : Album => { a with coverUrl := fm.url })
              (findOneAndUpdate (fun a => a.id == aid && a.userId == u)
                (fun a : Album => { a with media := a.media.filter (fun x => x ≠ mid) })
                db.albums).2).2 := by
          simp only [removeMediaRoute, h1]
          simp only [hcons, hfm]
          simp [hcov]
        rw [hroute, hsnd]
        have hset := findOneAndUpdate_find? (fun a => a.id == aid)
          (fun a : Album => { a with coverUrl := fm.url }) _ _ hfound (by simpa using halbid)
        simpa using hset
      · rw [not_not] at hcov
        have hroute : (removeMediaRoute u aid mid db).2.albums =
            (findOneAndUpdate (fun a => a.id == aid && a.userId == u)
              (fun a : Album => { a with media := a.media.filter (fun x => x ≠ mid) })
              db.albums).2 := by
          simp only [removeMediaRoute, h1]
          simp only [hcons, hfm]
          simp [hcov]
        rw [hroute, hsnd, hfound]
        have heqrec : ({ alb with
              media := alb.media.filter (fun x => x ≠ mid)
              coverUrl := fm.url } : Album) =
            { alb with media := alb.media.filter (fun x => x ≠ mid) } := by
          cases alb
          simp_all
        rw [heqrec]
  · -- MoveMedia
    intro hm hsrc hsfind htfind hst
    have hsrcid : srcAlb.id = src := by
      have := List.find?_some hsfind
      simp only [Bool.and_eq_true, beq_iff_eq] at this
      exact this.1
    have htgtid : tgtAlb.id = tgt := by
      have := List.find?_some htfind
      simp only [Bool.and_eq_true, beq_iff_eq] at this
      exact this.1
    have h1 : (findOneAndUpdate (fun a => a.id == src && a.userId == u)
        (fun a => { a with media := a.media.filter (fun x => x ≠ mid) }) db.albums).1 =
        some { srcAlb with media := srcAlb.media.filter (fun x => x ≠ mid) } := by
      rw [findOneAndUpdate_fst, hsfind]; rfl
    rcases findOneAndUpdate_decomp _ _ db.albums _ h1 with ⟨k1, x, k2, hk, hpreK, hpxK, hyxK, hsndK⟩
    have hxsrc : srcAlb = x := by
      have hfx : db.albums.find? (fun a => a.id == src && a.userId == u) = some x := by
        rw [hk]; exact find?_prefix _ hpreK hpxK k2
      rw [hsfind] at hfx
      exact Option.some.inj hfx
    subst hxsrc
    have htfind1 : (k1 ++ { srcAlb with media := srcAlb.media.filter (fun x => x ≠ mid) } ::
        k2).find? (fun a => a.id == tgt && a.userId == u) = some tgtAlb := by
      rw [find?_replace _ k1 k2 srcAlb _ (by simp [hsrcid, hst]) (by simp [hsrcid, hst]), ← hk]
      exact htfind
    have hids1 : ((k1 ++ { srcAlb with media := srcAlb.media.filter (fun x => x ≠ mid) } ::
        k2).map (fun a => a.id)) = db.albums.map (fun a => a.id) := by
      rw [hk]
      simp
    have hnodup1 : ((k1 ++ { srcAlb with media := srcAlb.media.filter (fun x => x ≠ mid) } ::
        k2).map (fun a => a.id)).Nodup := by
      rw [hids1]; exact hnodup
    have h2 : (findOneAndUpdate (fun a => a.id == tgt && a.userId == u)
        (fun a => { a with media := addToSet mid a.media })
        (k1 ++ { srcAlb with media := srcAlb.media.filter (fun x => x ≠ mid) } :: k2)).1 =
        some { tgtAlb with media := addToSet mid tgtAlb.media } := by
      rw [findOneAndUpdate_fst, htfind1]; rfl
    rcases findOneAndUpdate_decomp _ _ _ _ h2 with ⟨j1, y, j2, hj, hpreJ, hpyJ, hyyJ, hsndJ⟩
    have hytgt : tgtAlb = y := by
      have hfy : (k1 ++ { srcAlb with media := srcAlb.media.filter (fun x => x ≠ mid) } ::
          k2).find? (fun a => a.id == tgt && a.userId == u) = some y := by
        rw [hj]; exact find?_prefix _ hpreJ hpyJ j2
      rw [htfind1] at hfy
      exact Option.some.inj hfy
    subst hytgt
    have hpreJ2 : ∀ z ∈ j1, (z.id == tgt) = false := by
      intro z hz
      have := nodup_mid (g := fun a : Album => a.id) (hj ▸ hnodup1) z
        (List.mem_append.mpr (Or.inl hz))
      simp only [htgtid] at this
      simpa using this
    have hroutebase : (moveMediaRoute mid (some tgt) u db).2.albums =
        (if (({ tgtAlb with media := addToSet mid tgtAlb.media } : Album).media.length
            == 1) = true then
          (findOneAndUpdate (fun a => a.id == tgt)
            (fun a : Album => { a with coverUrl := media.url })
            (j1 ++ { tgtAlb with media := addToSet mid tgtAlb.media } :: j2)).2
        else (j1 ++ { tgtAlb with media := addToSet mid tgtAlb.media } :: j2)) ∧
        (moveMediaRoute mid (some tgt) u db).1 = Except.ok () := by
      constructor
      · simp only [moveMediaRoute, hm, hsrc, hsndK, h2, ← hsndJ]
      · simp only [moveMediaRoute, hm, hsrc, hsndK, h2]
    refine ⟨hroutebase.2, ?_, ?_⟩
    · -- source album: record only has the member pulled, cover untouched
      rw [hroutebase.1]
      have hfsrc : (j1 ++ { tgtAlb with media := addToSet mid tgtAlb.media } :: j2).find?
          (fun a => a.id == src) = some
            { srcAlb with media := srcAlb.media.filter (fun x => x ≠ mid) } := by
        rw [find?_replace _ j1 j2 tgtAlb _ (by simp [htgtid, Ne.symm hst])
          (by simp [htgtid, Ne.symm hst]), ← hj]
        have hpreK2 : ∀ z ∈ k1, (z.id == src) = false := by
          intro z hz
          have := nodup_mid (g := fun a : Album => a.id) (hk ▸ hnodup) z
            (List.mem_append.mpr (Or.inl hz))
          simp only [hsrcid] at this
          simpa using this
        exact find?_prefix _ hpreK2 (by simpa using hsrcid) k2
      have hside : ∀ z : Album, (fun a : Album => a.id == tgt) z = true →
          (fun a : Album => a.id == src) z = false ∧
          (fun a : Album => a.id == src)
            ((fun a : Album => { a with coverUrl := media.url }) z) = false := by
        intro z hzq
        simp only [beq_iff_eq] at hzq
        constructor
        · simp [hzq, Ne.symm hst]
        · simpa [hzq] using Ne.symm hst
      by_cases hlen : (({ tgtAlb with media := addToSet mid tgtAlb.media } : Album).media.length
          == 1) = true
      · rw [if_pos hlen]
        rw [find?_untouched (fun a => a.id == src) (fun a => a.id == tgt)
          (fun a : Album => { a with coverUrl := media.url }) hside]
        exact hfsrc
      · rw [if_neg hlen]
        exact hfsrc
    · -- target album: cover set to the moved media's URL only when it is
      -- now the sole member
      rw [hroutebase.1]
      by_cases hlen : (({ tgtAlb with media := addToSet mid tgtAlb.media } : Album).media.length
          == 1) = true
      · rw [if_pos hlen, if_pos hlen]
        have hfound : (j1 ++ { tgtAlb with media := addToSet mid tgtAlb.media } :: j2).find?
            (fun a => a.id == tgt) = some { tgtAlb with media := addToSet mid tgtAlb.media } :=
          find?_prefix _ hpreJ2 (by simpa using htgtid) j2
        have hset := findOneAndUpdate_find? (fun a => a.id == tgt)
          (fun a : Album => { a with coverUrl := media.url }) _ _ hfound (by simpa using htgtid)
        simpa using hset
      · rw [if_neg hlen, if_neg hlen]
        exact find?_prefix _ hpreJ2 (by simpa using htgtid) j2

/-- Album A (id 1) of user 7: members `[10, 11]`, cover = media 10's URL. -/
def c7A : Album :=
  { albumBase with id := 1, userId := 7, media := [10, 11], coverUrl := "u10" }

/-- Album B (id 2) of user 7: member `[12]`, cover = media 12's URL. -/
def c7B : Album :=
  { albumBase with id := 2, userId := 7, media := [12], coverUrl := "u12" }

/-- Media 10 of user 7, in album 1. -/
def c7M10 : Media := { mediaBase with id := 10, userId := 7, url := "u10", albumId := some 1 }

/-- Media 11 of user 7, in album 1. -/
def c7M11 : Media := { mediaBase with id := 11, userId := 7, url := "u11", albumId := some 1 }

/-- Media 12 of user 7, in album 2. -/
def c7M12 : Media := { mediaBase with id := 12, userId := 7, url := "u12", albumId := some 2 }

/-- The C7 database. -/
def c7DB : DB := { albums := [c7A, c7B], media := [c7M10, c7M11, c7M12] }

/-- C7 counterexample: the claim says that after `MoveMedia` each affected
album's cover equals the URL of its now-first member.  Moving media 10 from
album 1 to album 2 succeeds, album 1's remaining first member is media 11
(URL `"u11"`), yet album 1's cover stays `"u10"` — the route never
recomputes the source album's cover. -/
theorem c7_move_media_source_cover_stale :
    (moveMediaRoute 10 (some 2) 7 c7DB).1 = Except.ok () ∧
    (moveMediaRoute 10 (some 2) 7 c7DB).2.albums.find? (fun a => a.id == 1) =
      some { c7A with media := [11] } ∧
    ({ c7A with media := [11] } : Album).coverUrl = "u10" ∧
    (moveMediaRoute 10 (some 2) 7 c7DB).2.media.find? (fun m => m.id == 11) =
      some c7M11 ∧
    c7M11.url = "u11" ∧ ("u10" : String) ≠ "u11" := by
  refine ⟨by decide, by decide, by decide, by decide, by decide, by decide⟩

/-- C7 witness: removing media 10 from album 1 recomputes the cover to the
new first member's URL `"u11"`; removing media 12 empties album 2 and the
cover becomes `""`; moving media 10 to album 2 leaves the source cover
record untouched and, since album 2 then has two members, leaves the
destination cover untouched as well. -/
theorem c7_cover_witness :
    (removeMediaRoute 7 1 10 c7DB).2.albums.find? (fun a => a.id == 1) =
      some { c7A with media := [11], coverUrl := "u11" } ∧
    (removeMediaRoute 7 2 12 c7DB).2.albums.find? (fun a => a.id == 2) =
      some { c7B with media := [], coverUrl := "" } ∧
    (moveMediaRoute 10 (some 2) 7 c7DB).2.albums.find? (fun a => a.id == 1) =
      some { c7A with media := [11] } ∧
    (moveMediaRoute 10 (some 2) 7 c7DB).2.albums.find? (fun a => a.id == 2) =
      some { c7B with media := [12, 10] } := by
  have hrem1 := (c7_cover_spec 7 1 10 0 0 c7DB c7A c7A c7A c7M10 (by decide)).1 (by decide)
  have hrem2 := (c7_cover_spec 7 2 12 0 0 c7DB c7B c7B c7B c7M12 (by decide)).1 (by decide)
  have hmove := (c7_cover_spec 7 0 10 2 1 c7DB c7A c7A c7B c7M10 (by decide)).2
    (by decide) (by decide) (by decide) (by decide) (by decide)
  refine ⟨?_, ?_, ?_, ?_⟩
  · have h1 := hrem1.2.2 11 [] c7M11 (by decide) (by decide)
    simpa using h1
  · have h2 := hrem2.2.1 (by decide)
    simpa using h2
  · have h3 := hmove.2.1
    simpa using h3
  · have h4 := hmove.2.2
    simpa using h4

/-! ### C8 — the trash reaper -/

theorem filter_filter_bool (p q : α → Bool) :
    ∀ l : List α, (l.filter p).filter q = l.filter (fun a => p a && q a) := by
  intro l
  induction l with
  | nil => rfl
  | cons x xs ih =>
      by_cases hp : p x
      · by_cases hq : q x
        · simp [List.filter_cons, hp, hq, ih]
        · rw [Bool.not_eq_true] at hq
          simp [List.filter_cons, hp, hq, ih]
      · rw [Bool.not_eq_true] at hp
        simp [List.filter_cons, hp, ih]

theorem filter_congr_mem (p q : α → Bool) :
    ∀ l : List α, (∀ x ∈ l, p x = q x) → l.filter p = l.filter q := by
  intro l
  induction l with
  | nil => intro; rfl
  | cons x xs ih =>
      intro h
      have hx := h x (List.mem_cons_self x xs)
      have ihh := ih (fun z hz => h z (List.mem_cons_of_mem x hz))
      by_cases hp : p x
      · rw [List.filter_cons, List.filter_cons, if_pos hp, if_pos (hx ▸ hp), ihh]
      · rw [Bool.not_eq_true] at hp
        rw [List.filter_cons, List.filter_cons, if_neg (by simp [hp]),
          if_neg (by simp [← hx, hp]), ihh]

theorem reaperGo_albums (ok : Nat → Bool) :
    ∀ (E : List Media) (st : DB), (reaperGo ok E st).1.albums = st.albums := by
  intro E
  induction E with
  | nil => intro st; rfl
  | cons m rest ih =>
      intro st
      by_cases hpub : m.public_id ≠ ""
      · by_cases hok : ok m.id
        · simp only [reaperGo, if_pos hpub, if_pos hok]
          rw [ih]
        · rw [Bool.not_eq_true] at hok
          simp only [reaperGo, if_pos hpub, hok, Bool.false_eq_true, if_false]
          rw [ih]
      · rw [not_not] at hpub
        simp only [reaperGo, if_neg (not_not_intro hpub)]
        rw [ih]

theorem reaperGo_attempts (ok : Nat → Bool) :
    ∀ (E : List Media) (st : DB),
      (reaperGo ok E st).2 = (E.filter (fun m => m.public_id ≠ "")).map (fun m => m.id) := by
  intro E
  induction E with
  | nil => intro st; rfl
  | cons m rest ih =>
      intro st
      by_cases hpub : m.public_id ≠ ""
      · by_cases hok : ok m.id
        · simp only [reaperGo, if_pos hpub, if_pos hok]
          rw [List.filter_cons, if_pos (by simpa using hpub), List.map_cons, ih]
        · rw [Bool.not_eq_true] at hok
          simp only [reaperGo, if_pos hpub, hok, Bool.false_eq_true, if_false]
          rw [List.filter_cons, if_pos (by simpa using hpub), List.map_cons, ih]
      · rw [not_not] at hpub
        have hdec : (decide (m.public_id ≠ "") : Bool) = false := by rw [hpub]; decide
        simp only [reaperGo, if_neg (not_not_intro hpub)]
        rw [List.filter_cons, if_neg (by simp [hdec]), ih]

theorem reaperGo_media (ok : Nat → Bool) :
    ∀ (E : List Media) (st : DB),
      (reaperGo ok E st).1.media = st.media.filter
        (fun x => !(E.any (fun m => (m.public_id == "" || ok m.id) && m.id == x.id))) := by
  intro E
  induction E with
  | nil => intro st; simp [reaperGo]
  | cons m rest ih =>
      intro st
      have hexp : ∀ del : Bool, (del && (m.public_id == "" || ok m.id)) = true →
          (st.media.filter (fun x => x.id ≠ m.id)).filter
              (fun x => !(rest.any (fun m2 => (m2.public_id == "" || ok m2.id) && m2.id == x.id)))
            = st.media.filter
              (fun x => !((m :: rest).any
                (fun m2 => (m2.public_id == "" || ok m2.id) && m2.id == x.id))) := by
        intro del hdel
        rw [filter_filter_bool]
        apply filter_congr_mem
        intro x _
        simp only [Bool.and_eq_true] at hdel
        by_cases hid : m.id = x.id
        · have h1 : (m.id == x.id) = true := by simp [hid]
          rw [List.any_cons, h1, hdel.2]
          simp [hid]
        · have h1 : (m.id == x.id) = false := by simp [hid]
          rw [List.any_cons, h1]
          simp [Ne.symm hid]
      by_cases hpub : m.public_id ≠ ""
      · by_cases hok : ok m.id
        · simp only [reaperGo, if_pos hpub, if_pos hok]
          rw [ih]
          exact hexp true (by simp [hok])
        · rw [Bool.not_eq_true] at hok
          simp only [reaperGo, if_pos hpub, hok, Bool.false_eq_true, if_false]
          rw [ih]
          apply filter_congr_mem
          intro x _
          have hpub2 : (m.public_id == "") = false := by simpa using hpub
          simp [List.any_cons, hpub2, hok]
      · rw [not_not] at hpub
        simp only [reaperGo, if_neg (not_not_intro hpub)]
        rw [ih]
        exact hexp true (by simp [hpub])

/-- C8 (amended): one reaper run attempts a blob-store destroy for exactly
the media with `isInTrash = true` and `scheduledDeleteAt ≤ now` that carry a
`public_id`; it deletes the metadata of exactly the qualifying items whose
destroy succeeded (or that had no `public_id` to destroy); a per-item
destroy failure is logged without aborting the rest of the batch, but it
DOES skip that item's metadata delete (the record stays for the next run);
and a run with no qualifying item changes nothing.  (The original claim's
"without ... blocking that item's metadata delete" fails — see the
counterexample.) -/
theorem c8_reaper_spec (now : Nat) (ok : Nat → Bool) (db : DB)
    (hnodup : (db.media.map (fun m => m.id)).Nodup) :
    (reaperRun now ok db).2 =
      ((db.media.filter (reaperQualifies now)).filter (fun m => m.public_id ≠ "")).map
        (fun m => m.id) ∧
    (reaperRun now ok db).1.albums = db.albums ∧
    (reaperRun now ok db).1.media = db.media.filter
      (fun x => !(reaperQualifies now x && (x.public_id == "" || ok x.id))) ∧
    (db.media.filter (reaperQualifies now) = [] →
      (reaperRun now ok db).1 = db ∧ (reaperRun now ok db).2 = []) := by
  refine ⟨reaperGo_attempts ok _ db, reaperGo_albums ok _ db, ?_, ?_⟩
  · rw [reaperRun, reaperGo_media]
    apply filter_congr_mem
    intro x hx
    by_cases hq : ((db.media.filter (reaperQualifies now)).any
        (fun m => (m.public_id == "" || ok m.id) && m.id == x.id)) = true
    · rcases List.any_eq_true.mp hq with ⟨m, hmE, hmc⟩
      have hmdb : m ∈ db.media := List.mem_of_mem_filter hmE
      have hmq : reaperQualifies now m = true := List.of_mem_filter hmE
      simp only [Bool.and_eq_true, beq_iff_eq] at hmc
      have hmx : m = x := nodup_inj hnodup hmdb hx hmc.2
      rw [hq]
      subst hmx
      simp [hmq, hmc.1]
    · rw [Bool.not_eq_true] at hq
      rw [hq]
      by_cases hqx : reaperQualifies now x = true
      · have hxE : x ∈ db.media.filter (reaperQualifies now) := List.mem_filter.mpr ⟨hx, hqx⟩
        have : ((x.public_id == "" || ok x.id) && x.id == x.id) = false := by
          have := List.any_eq_true.not.mp (by rw [hq]; simp)
          by_contra hc
          rw [Bool.not_eq_false] at hc
          exact this ⟨x, hxE, hc⟩
        simp only [beq_self_eq_true, Bool.and_true] at this
        simp [hqx, this]
      · rw [Bool.not_eq_true] at hqx
        simp [hqx]
  · intro hE
    constructor
    · have h1 : (reaperRun now ok db).1.albums = db.albums := reaperGo_albums ok _ db
      have h2 : (reaperRun now ok db).1.media = db.media := by
        rw [reaperRun, hE]
        rfl
      rcases hres : (reaperRun now ok db).1 with ⟨a, m⟩
      rcases db with ⟨da, dm⟩
      rw [hres] at h1 h2
      simp_all
    · rw [reaperRun, hE]
      rfl

/-- An expired trash item of user 7 whose blob destroy will fail. -/
def c8M1 : Media :=
  { mediaBase with
    id := 1
    userId := 7
    public_id := "p1"
    isInTrash := true
    trashedAt := some 0
    scheduledDeleteAt := some 10 }

/-- An expired trash item of user 7 whose blob destroy succeeds. -/
def c8M2 : Media :=
  { mediaBase with
    id := 2
    userId := 7
    public_id := "p2"
    isInTrash := true
    trashedAt := some 0
    scheduledDeleteAt := some 10 }

/-- The C8 database: two expired trash items. -/
def c8DB : DB := { albums := [], media := [c8M1, c8M2] }

/-- The blob store destroy outcome: it throws for media 1, succeeds for
media 2. -/
def c8Destroy : Nat → Bool := fun i => i != 1

/-- C8 counterexample: with two qualifying items and the destroy failing
only for media 1, the run attempts both destroys and still deletes media
2's metadata (the batch is not aborted), but media 1's metadata record
survives the run — its delete was skipped, while the claim says a destroy
failure must not block that item's metadata delete. -/
theorem c8_failed_destroy_keeps_metadata :
    reaperQualifies 100 c8M1 = true ∧
    (reaperRun 100 c8Destroy c8DB).2 = [1, 2] ∧
    (reaperRun 100 c8Destroy c8DB).1.media = [c8M1] := by
  refine ⟨by decide, by decide, by decide⟩

/-- C8 witness: the characterization theorem applied to the concrete
two-item database, plus the no-op case on an empty database. -/
theorem c8_reaper_witness :
    (reaperRun 100 c8Destroy c8DB).2 =
      ((c8DB.media.filter (reaperQualifies 100)).filter (fun m => m.public_id ≠ "")).map
        (fun m => m.id) ∧
    (reaperRun 100 c8Destroy c8DB).1.media = c8DB.media.filter
      (fun x => !(reaperQualifies 100 x && (x.public_id == "" || c8Destroy x.id))) ∧
    (reaperRun 100 c8Destroy { albums := [], media := [] }).1 =
      ({ albums := [], media := [] } : DB) := by
  have h := c8_reaper_spec 100 c8Destroy c8DB (by decide)
  have h0 := c8_reaper_spec 100 c8Destroy { albums := [], media := [] } (by decide)
  exact ⟨h.1, h.2.2.1, (h0.2.2.2 (by decide)).1⟩

/-! ### C3 — recursive album deletion

The lemmas below characterize `deleteChildren`/`deleteAlbumRoute` whenever
the recursion completes (`some` result): albums are only ever removed, every
listed child is removed, a removed album leaves no surviving album pointing
at it, and the media are exactly the original media with the members of
removed albums detached. -/

theorem clearAlbumIdOn_nil (ms : List Media) : clearAlbumIdOn [] ms = ms := by
  simp [clearAlbumIdOn]

theorem clearAlbumIdOn_clearAlbumIdOn (a b : List Nat) (ms : List Media) :
    clearAlbumIdOn b (clearAlbumIdOn a ms) = clearAlbumIdOn (a ++ b) ms := by
  simp only [clearAlbumIdOn, List.map_map]
  apply List.map_congr_left
  intro m _
  by_cases ha : m.id ∈ a
  · by_cases hb : m.id ∈ b
    · simp [Function.comp, ha, hb]
    · simp [Function.comp, ha, hb]
  · by_cases hb : m.id ∈ b
    · simp [Function.comp, ha, hb]
    · simp [Function.comp, ha, hb]

theorem clearAlbumIdOn_map_id (S : List Nat) (ms : List Media) :
    (clearAlbumIdOn S ms).map (fun m => m.id) = ms.map (fun m => m.id) := by
  simp only [clearAlbumIdOn, List.map_map]
  apply List.map_congr_left
  intro m _
  by_cases h : m.id ∈ S
  · simp [Function.comp, h]
  · simp [Function.comp, h]

/-- Destructor for one `deleteStep` iteration: the recursive call succeeded
and the loop continues on the state with the child's members detached and
the child removed.  (When the child has no members the code skips the media
update, which equals detaching the empty list.) -/
theorem deleteStep_cons (recur : Nat → DB → Option DB) (c : Album) (rest : List Album)
    (db db' : DB) (h : deleteStep recur (c :: rest) db = some db') :
    ∃ db1, recur c.id db = some db1 ∧
      deleteStep recur rest
        { albums := db1.albums.filter (fun a => a.id ≠ c.id)
          media := clearAlbumIdOn c.media db1.media } = some db' := by
  simp only [deleteStep] at h
  rcases hrec : recur c.id db with _ | db1
  · rw [hrec] at h
    exact absurd h (by simp)
  · rw [hrec] at h
    refine ⟨db1, rfl, ?_⟩
    by_cases hemp : c.media.isEmpty
    · have hnil : c.media = [] := by simpa using hemp
      rw [hnil, clearAlbumIdOn_nil]
      rw [hnil] at h
      simpa using h
    · rw [Bool.not_eq_true] at hemp
      simp only [hemp, Bool.false_eq_true, if_false] at h
      exact h

theorem deleteStep_albums_sublist (recur : Nat → DB → Option DB)
    (hr : ∀ pid db db1, recur pid db = some db1 → db1.albums.Sublist db.albums) :
    ∀ (cs : List Album) (db db' : DB), deleteStep recur cs db = some db' →
      db'.albums.Sublist db.albums := by
  intro cs
  induction cs with
  | nil =>
      intro db db' h
      have : db = db' := by simpa [deleteStep] using h
      rw [← this]
  | cons c rest ih =>
      intro db db' h
      rcases deleteStep_cons recur c rest db db' h with ⟨db1, hrec, hnext⟩
      have h1 := hr c.id db db1 hrec
      have h2 := ih _ db' hnext
      exact List.Sublist.trans (List.Sublist.trans h2 (List.filter_sublist _)) h1

theorem deleteChildren_albums_sublist :
    ∀ (fuel pid : Nat) (db db' : DB), deleteChildren fuel pid db = some db' →
      db'.albums.Sublist db.albums := by
  intro fuel
  induction fuel with
  | zero => intro pid db db' h; exact absurd h (by simp [deleteChildren])
  | succ n ih =>
      intro pid db db' h
      exact deleteStep_albums_sublist (deleteChildren n) (fun p d d1 => ih p d d1) _ db db' h

/-- Every album listed in the loop's snapshot is absent (by id) from the
final state. -/
theorem deleteStep_removes (recur : Nat → DB → Option DB)
    (hr : ∀ pid db db1, recur pid db = some db1 → db1.albums.Sublist db.albums) :
    ∀ (cs : List Album) (db db' : DB), deleteStep recur cs db = some db' →
      ∀ c ∈ cs, ∀ a ∈ db'.albums, a.id ≠ c.id := by
  intro cs
  induction cs with
  | nil => intro db db' _ c hc; exact absurd hc (by simp)
  | cons c rest ih =>
      intro db db' h x hx a ha
      rcases deleteStep_cons recur c rest db db' h with ⟨db1, hrec, hnext⟩
      rcases List.mem_cons.mp hx with hx | hx
      · subst hx
        have hsub := deleteStep_albums_sublist recur hr _ _ _ hnext
        have ha3 := hsub.subset ha
        have := List.of_mem_filter ha3
        simpa using this
      · exact ih _ db' hnext x hx a ha

/-- After a completed `deleteChildren fuel pid`, no surviving album has
`parentAlbumId = some pid`. -/
theorem deleteChildren_no_children (fuel pid : Nat) (db db' : DB)
    (h : deleteChildren fuel pid db = some db') :
    ∀ a ∈ db'.albums, a.parentAlbumId ≠ some pid := by
  intro a ha hpar
  rcases fuel with _ | n
  · exact absurd h (by simp [deleteChildren])
  · simp only [deleteChildren] at h
    have hsub := deleteStep_albums_sublist (deleteChildren n)
      (fun p d d1 => deleteChildren_albums_sublist n p d d1) _ db db' h
    have hadb : a ∈ db.albums := hsub.subset ha
    have hmem : a ∈ db.albums.filter (fun x => x.parentAlbumId == some pid) :=
      List.mem_filter.mpr ⟨hadb, by simp [hpar]⟩
    exact deleteStep_removes (deleteChildren n)
      (fun p d d1 => deleteChildren_albums_sublist n p d d1) _ db db' h a hmem a ha rfl

/-- Albums deleted during a completed `deleteStep` loop have no surviving
children in the loop's result. -/
theorem deleteStep_no_orphans (recur : Nat → DB → Option DB)
    (hrSub : ∀ pid db db1, recur pid db = some db1 → db1.albums.Sublist db.albums)
    (hrL4 : ∀ pid db db1, recur pid db = some db1 → ∀ y ∈ db.albums, y ∉ db1.albums →
      ∀ a ∈ db1.albums, a.parentAlbumId ≠ some y.id)
    (hrL2 : ∀ pid db db1, recur pid db = some db1 →
      ∀ a ∈ db1.albums, a.parentAlbumId ≠ some pid) :
    ∀ (cs : List Album) (db db' : DB), deleteStep recur cs db = some db' →
      ∀ y ∈ db.albums, y ∉ db'.albums → ∀ a ∈ db'.albums, a.parentAlbumId ≠ some y.id := by
  intro cs
  induction cs with
  | nil =>
      intro db db' h y hy hyout a ha
      have : db = db' := by simpa [deleteStep] using h
      subst this
      exact absurd hy hyout
  | cons c rest ih =>
      intro db db' h y hy hyout a ha hpar
      rcases deleteStep_cons recur c rest db db' h with ⟨db1, hrec, hnext⟩
      have hsubnext := deleteStep_albums_sublist recur hrSub _ _ _ hnext
      by_cases hy1 : y ∈ db1.albums
      · by_cases hy3 : y ∈ db1.albums.filter (fun x => x.id ≠ c.id)
        · -- y survived this iteration and was deleted later in the loop
          exact ih _ db' hnext y (by simpa using hy3) hyout a ha hpar
        · -- y is the child c itself (removed by the filter)
          have hyc : y.id = c.id := by
            by_contra hne
            exact hy3 (List.mem_filter.mpr ⟨hy1, by simpa using hne⟩)
          have ha1 : a ∈ db1.albums :=
            (List.filter_sublist _).subset (hsubnext.subset ha)
          exact hrL2 c.id db db1 hrec a ha1 (by rw [hpar, hyc])
      · -- y was deleted inside the recursive call on c
        have ha1 : a ∈ db1.albums :=
          (List.filter_sublist _).subset (hsubnext.subset ha)
        exact hrL4 c.id db db1 hrec y hy hy1 a ha1 hpar

/-- Albums deleted during a completed `deleteChildren` call have no
surviving children in its result. -/
theorem deleteChildren_no_orphans :
    ∀ (fuel pid : Nat) (db db' : DB), deleteChildren fuel pid db = some db' →
      ∀ y ∈ db.albums, y ∉ db'.albums → ∀ a ∈ db'.albums, a.parentAlbumId ≠ some y.id := by
  intro fuel
  induction fuel with
  | zero => intro pid db db' h; exact absurd h (by simp [deleteChildren])
  | succ n ih =>
      intro pid db db' h
      exact deleteStep_no_orphans (deleteChildren n)
        (fun p d d1 => deleteChildren_albums_sublist n p d d1)
        (fun p d d1 => ih p d d1)
        (fun p d d1 hrec => deleteChildren_no_children n p d d1 hrec)
        _ db db' h

/-- Media shape of a completed `deleteStep` loop: the resulting media are
the original media with some set `S` of member ids detached, and `S` covers
the members of every album deleted during the loop. -/
theorem deleteStep_media (recur : Nat → DB → Option DB)
    (hrSub : ∀ pid db db1, recur pid db = some db1 → db1.albums.Sublist db.albums)
    (hrS : ∀ pid db db1, (db.albums.map (fun a => a.id)).Nodup → recur pid db = some db1 →
      ∃ S : List Nat, db1.media = clearAlbumIdOn S db.media ∧
        ∀ y ∈ db.albums, y ∉ db1.albums → ∀ x ∈ y.media, x ∈ S) :
    ∀ (cs : List Album) (db db' : DB),
      (db.albums.map (fun a => a.id)).Nodup →
      (∀ c ∈ cs, c ∈ db.albums ∨ ∀ a ∈ db.albums, a.id ≠ c.id) →
      deleteStep recur cs db = some db' →
      ∃ S : List Nat, db'.media = clearAlbumIdOn S db.media ∧
        ∀ y ∈ db.albums, y ∉ db'.albums → ∀ x ∈ y.media, x ∈ S := by
  intro cs
  induction cs with
  | nil =>
      intro db db' _ _ h
      have hdb : db = db' := by simpa [deleteStep] using h
      subst hdb
      refine ⟨[], (clearAlbumIdOn_nil db.media).symm, ?_⟩
      intro y hy hyout
      exact absurd hy hyout
  | cons c rest ih =>
      intro db db' hnodup hcs h
      rcases deleteStep_cons recur c rest db db' h with ⟨db1, hrec, hnext⟩
      obtain ⟨S1, hS1, hcov1⟩ := hrS c.id db db1 hnodup hrec
      have hsub1 : db1.albums.Sublist db.albums := hrSub _ _ _ hrec
      have hsub3 : (db1.albums.filter (fun a => a.id ≠ c.id)).Sublist db.albums :=
        List.Sublist.trans (List.filter_sublist _) hsub1
      have hnodup3 : (((db1.albums.filter (fun a => a.id ≠ c.id)).map
          (fun a => a.id))).Nodup :=
        List.Nodup.sublist (hsub3.map (fun a => a.id)) hnodup
      have hcs3 : ∀ x ∈ rest,
          x ∈ ({ albums := db1.albums.filter (fun a => a.id ≠ c.id)
                 media := clearAlbumIdOn c.media db1.media } : DB).albums ∨
          ∀ a ∈ ({ albums := db1.albums.filter (fun a => a.id ≠ c.id)
                   media := clearAlbumIdOn c.media db1.media } : DB).albums, a.id ≠ x.id := by
        intro x hx
        rcases hcs x (List.mem_cons_of_mem c hx) with hin | habs
        · by_cases hx3 : x ∈ db1.albums.filter (fun a => a.id ≠ c.id)
          · exact Or.inl hx3
          · refine Or.inr ?_
            intro a ha3 heq
            have hadb : a ∈ db.albums := hsub3.subset ha3
            have hax : a = x := nodup_inj hnodup hadb hin heq
            exact hx3 (hax ▸ ha3)
        · refine Or.inr ?_
          intro a ha3
          exact habs a (hsub3.subset ha3)
      obtain ⟨S2, hS2, hcov2⟩ := ih _ db' hnodup3 hcs3 hnext
      refine ⟨S1 ++ c.media ++ S2, ?_, ?_⟩
      · rw [hS2]
        show clearAlbumIdOn S2 (clearAlbumIdOn c.media db1.media) = _
        rw [hS1, clearAlbumIdOn_clearAlbumIdOn, clearAlbumIdOn_clearAlbumIdOn,
          List.append_assoc]
      · intro y hy hyout x hxmem
        by_cases hy1 : y ∈ db1.albums
        · by_cases hy3mem : y ∈ db1.albums.filter (fun a => a.id ≠ c.id)
          · have hx2 := hcov2 y hy3mem hyout x hxmem
            exact List.mem_append.mpr (Or.inr hx2)
          · have hyc : y.id = c.id := by
              by_contra hne
              exact hy3mem (List.mem_filter.mpr ⟨hy1, by simpa using hne⟩)
            rcases hcs c (List.mem_cons_self c rest) with hcin | habs
            · have hyceq : y = c := nodup_inj hnodup hy hcin hyc
              subst hyceq
              exact List.mem_append.mpr (Or.inl (List.mem_append.mpr (Or.inr hxmem)))
            · exact absurd hyc (habs y hy)
        · have hx1 := hcov1 y hy hy1 x hxmem
          exact List.mem_append.mpr (Or.inl (List.mem_append.mpr (Or.inl hx1)))

/-- Media shape of a completed `deleteChildren` call. -/
theorem deleteChildren_media :
    ∀ (fuel pid : Nat) (db db' : DB), (db.albums.map (fun a => a.id)).Nodup →
      deleteChildren fuel pid db = some db' →
      ∃ S : List Nat, db'.media = clearAlbumIdOn S db.media ∧
        ∀ y ∈ db.albums, y ∉ db'.albums → ∀ x ∈ y.media, x ∈ S := by
  intro fuel
  induction fuel with
  | zero => intro pid db db' _ h; exact absurd h (by simp [deleteChildren])
  | succ n ih =>
      intro pid db db' hnodup h
      refine deleteStep_media (deleteChildren n)
        (fun p d d1 => deleteChildren_albums_sublist n p d d1)
        (fun p d d1 hnd => ih p d d1 hnd) _ db db' hnodup ?_ h
      intro c hc
      exact Or.inl (List.mem_of_mem_filter hc)

theorem Desc_src_mem {al : List Album} {p x : Nat} (h : Desc al p x) :
    ∃ b ∈ al, b.id = x := by
  cases h with
  | base a ha hp => exact ⟨a, ha, rfl⟩
  | step a q ha hq hd => exact ⟨a, ha, rfl⟩

/-- C3: when `Delete(albumId)` completes on an album owned by the caller
(on a database with unique album ids), (1) no album of the original subtree
— neither the album itself nor any `Desc`-descendant — remains, (2) every
media item that was a member of any subtree album has `albumId = none`,
(3) no media record is deleted (the media ids are exactly preserved, in
order), and (4) no remaining album's `parentAlbumId` references a deleted
album. -/
theorem c3_delete_album_subtree (fuel uid aid : Nat) (db db' : DB)
    (hnodup : (db.albums.map (fun a => a.id)).Nodup)
    (hrun : deleteAlbumRoute fuel uid aid db = some (Except.ok db')) :
    (∀ a ∈ db'.albums, a.id ≠ aid ∧ ¬ Desc db.albums aid a.id) ∧
    (∀ m ∈ db'.media, ∀ y ∈ db.albums, (y.id = aid ∨ Desc db.albums aid y.id) →
      m.id ∈ y.media → m.albumId = none) ∧
    db'.media.map (fun m => m.id) = db.media.map (fun m => m.id) ∧
    (∀ a ∈ db'.albums, ∀ p, a.parentAlbumId = some p →
      (∃ b ∈ db.albums, b.id = p) → ∃ b ∈ db'.albums, b.id = p) := by
  rcases hfind : db.albums.find? (fun a => a.id == aid && a.userId == uid) with _ | album
  · simp only [deleteAlbumRoute, hfind] at hrun
    exact absurd hrun (by simp)
  · rcases hdc : deleteChildren fuel aid db with _ | db1
    · simp only [deleteAlbumRoute, hfind, hdc] at hrun
      exact absurd hrun (by simp)
    · have halbid : album.id = aid := by
        have := List.find?_some hfind
        simp only [Bool.and_eq_true, beq_iff_eq] at this
        exact this.1
      have halbmem : album ∈ db.albums := List.mem_of_find?_eq_some hfind
      have hshape : db'.albums = db1.albums.filter (fun a => a.id ≠ aid) ∧
          db'.media = clearAlbumIdOn album.media db1.media := by
        simp only [deleteAlbumRoute, hfind, hdc] at hrun
        split at hrun
        next hemp =>
          have hnil : album.media = [] := by simpa using hemp
          have hdb := Except.ok.inj (Option.some.inj hrun)
          rw [← hdb, hnil, clearAlbumIdOn_nil]
          exact ⟨rfl, rfl⟩
        next hemp =>
          have hdb := Except.ok.inj (Option.some.inj hrun)
          rw [← hdb]
          exact ⟨rfl, rfl⟩
      have hsub1 : db1.albums.Sublist db.albums := deleteChildren_albums_sublist fuel aid db db1 hdc
      have hsubf : db'.albums.Sublist db1.albums := by
        rw [hshape.1]; exact List.filter_sublist _
      have rNoAid : ∀ a ∈ db'.albums, a.id ≠ aid := by
        intro a ha
        rw [hshape.1] at ha
        have := List.of_mem_filter ha
        simpa using this
      have rL2 : ∀ a ∈ db'.albums, a.parentAlbumId ≠ some aid := by
        intro a ha
        exact deleteChildren_no_children fuel aid db db1 hdc a (hsubf.subset ha)
      have rL4 : ∀ y ∈ db.albums, y ∉ db'.albums → ∀ a ∈ db'.albums,
          a.parentAlbumId ≠ some y.id := by
        intro y hy hyout a ha
        by_cases hy1 : y ∈ db1.albums
        · have hyid : y.id = aid := by
            by_contra hne
            exact hyout (by rw [hshape.1]; exact List.mem_filter.mpr ⟨hy1, by simpa using hne⟩)
          rw [hyid]
          exact rL2 a ha
        · exact deleteChildren_no_orphans fuel aid db db1 hdc y hy hy1 a (hsubf.subset ha)
      have aux : ∀ x, Desc db.albums aid x → ∀ a ∈ db'.albums, a.id ≠ x := by
        intro x hdesc
        induction hdesc with
        | base A hA hpar =>
            intro a ha heq
            have hadb : a ∈ db.albums := hsub1.subset (hsubf.subset ha)
            have haA : a = A := nodup_inj hnodup hadb hA heq
            exact rL2 a ha (by rw [haA, hpar])
        | step A q hA hpar hd ih =>
            intro a ha heq
            rcases Desc_src_mem hd with ⟨B, hB, hBid⟩
            have hBout : B ∉ db'.albums := by
              intro hBin
              exact ih B hBin hBid
            have hadb : a ∈ db.albums := hsub1.subset (hsubf.subset ha)
            have haA : a = A := nodup_inj hnodup hadb hA heq
            exact rL4 B hB hBout a ha (by rw [haA, hpar, hBid])
      obtain ⟨S1, hS1, hcov1⟩ := deleteChildren_media fuel aid db db1 hnodup hdc
      have hsubtree_gone : ∀ y ∈ db.albums, (y.id = aid ∨ Desc db.albums aid y.id) →
          y ∉ db'.albums := by
        intro y hy hcase hyin
        rcases hcase with hcase | hcase
        · exact rNoAid y hyin hcase
        · exact aux y.id hcase y hyin rfl
      have hcov : ∀ y ∈ db.albums, y ∉ db'.albums → y.id = aid ∨ Desc db.albums aid y.id →
          ∀ x ∈ y.media, x ∈ S1 ++ album.media := by
        intro y hy hyout _ x hx
        by_cases hy1 : y ∈ db1.albums
        · have hyid : y.id = aid := by
            by_contra hne
            exact hyout (by rw [hshape.1]; exact List.mem_filter.mpr ⟨hy1, by simpa using hne⟩)
          have hyalb : y = album := nodup_inj hnodup hy halbmem (by rw [hyid, halbid])
          subst hyalb
          exact List.mem_append.mpr (Or.inr hx)
        · exact List.mem_append.mpr (Or.inl (hcov1 y hy hy1 x hx))
      refine ⟨?_, ?_, ?_, ?_⟩
      · intro a ha
        refine ⟨rNoAid a ha, ?_⟩
        intro hdesc
        exact aux a.id hdesc a ha rfl
      · intro m hm y hy hcase hmem
        have hmedS : db'.media = clearAlbumIdOn (S1 ++ album.media) db.media := by
          rw [hshape.2, hS1, clearAlbumIdOn_clearAlbumIdOn]
        rw [hmedS] at hm
        rcases List.mem_map.mp hm with ⟨m0, hm0, hmap⟩
        have hid : m.id = m0.id := by
          by_cases hS : m0.id ∈ S1 ++ album.media
          · rw [← hmap, if_pos hS]
          · rw [← hmap, if_neg hS]
        have hyout := hsubtree_gone y hy hcase
        have hinS : m0.id ∈ S1 ++ album.media := by
          have := hcov y hy hyout hcase m.id hmem
          rw [hid] at this
          exact this
        rw [← hmap, if_pos hinS]
      · rw [hshape.2, hS1, clearAlbumIdOn_clearAlbumIdOn, clearAlbumIdOn_map_id]
      · intro a ha p hpar hex
        rcases hex with ⟨b, hb, hbid⟩
        by_cases hbin : b ∈ db'.albums
        · exact ⟨b, hbin, hbid⟩
        · exact absurd hpar (by rw [← hbid]; exact rL4 b hb hbin a ha)

/-- Root album 1 of user 7 with member media 10. -/
def c3Root : Album := { albumBase with id := 1, userId := 7, media := [10] }

/-- Album 2, child of 1, with member media 11. -/
def c3Child : Album :=
  { albumBase with id := 2, userId := 7, media := [11], parentAlbumId := some 1 }

/-- Album 3, child of 2, with member media 12. -/
def c3Grand : Album :=
  { albumBase with id := 3, userId := 7, media := [12], parentAlbumId := some 2 }

/-- Album 4, an unrelated root with member media 13. -/
def c3Other : Album := { albumBase with id := 4, userId := 7, media := [13] }

/-- The C3 database: the subtree 1 → 2 → 3 plus the unrelated album 4. -/
def c3DB : DB :=
  { albums := [c3Root, c3Child, c3Grand, c3Other]
    media :=
      [ { mediaBase with id := 10, userId := 7, albumId := some 1 },
        { mediaBase with id := 11, userId := 7, albumId := some 2 },
        { mediaBase with id := 12, userId := 7, albumId := some 3 },
        { mediaBase with id := 13, userId := 7, albumId := some 4 } ] }

/-- The state after `Delete(1)`: only album 4 survives, media 10–12 are
detached, media 13 keeps its album. -/
def c3DBafter : DB :=
  { albums := [c3Other]
    media :=
      [ { mediaBase with id := 10, userId := 7, albumId := none },
        { mediaBase with id := 11, userId := 7, albumId := none },
        { mediaBase with id := 12, userId := 7, albumId := none },
        { mediaBase with id := 13, userId := 7, albumId := some 4 } ] }

/-- C3 witness: deleting album 1 (with descendants 2 and 3, and three member
media across the subtree) on the concrete database completes and the
characterization theorem applies: no subtree album remains, all three member
media are detached, the media ids are preserved, and no dangling parent
references remain. -/
theorem c3_delete_album_witness :
    deleteAlbumRoute 4 7 1 c3DB = some (Except.ok c3DBafter) ∧
    (∀ a ∈ c3DBafter.albums, a.id ≠ 1 ∧ ¬ Desc c3DB.albums 1 a.id) ∧
    (∀ m ∈ c3DBafter.media, ∀ y ∈ c3DB.albums, (y.id = 1 ∨ Desc c3DB.albums 1 y.id) →
      m.id ∈ y.media → m.albumId = none) ∧
    c3DBafter.media.map (fun m => m.id) = c3DB.media.map (fun m => m.id) ∧
    (∀ a ∈ c3DBafter.albums, ∀ p, a.parentAlbumId = some p →
      (∃ b ∈ c3DB.albums, b.id = p) → ∃ b ∈ c3DBafter.albums, b.id = p) := by
  have hrun : deleteAlbumRoute 4 7 1 c3DB = some (Except.ok c3DBafter) := by decide
  exact ⟨hrun, c3_delete_album_subtree 4 7 1 c3DB c3DBafter (by decide) hrun⟩

end ImageLibrary
